import Mathlib

/-!
Verification development for the VAT Smart Challan integration client
(`vschallan/vschallan.py` and the doctype wrappers under
`vschallan/vat_challan/`).  The Python client is shallowly embedded below:
pure computations become Lean functions over `ℚ`, `String` and a JSON-like
value type; the HTTP transport becomes an explicit stream of responses; the
Frappe document store becomes explicit record lists threaded through the
operations; `frappe.throw` / Python exceptions become `Except`/error flags.
-/

namespace VSChallan

/-! ## JSON-like values

`JValue` models the Python values produced by `json.loads` and
`xmltodict.parse`: `None`, booleans, numbers, strings, lists and dicts
(dicts as ordered association lists, matching Python dict insertion order).
Numbers are modelled as rationals; an integer-valued rational models a
Python `int` (JSON integer literal). -/

inductive JValue where
  | null
  | bool (b : Bool)
  | num (q : ℚ)
  | str (s : String)
  | arr (xs : List JValue)
  | obj (fields : List (String × JValue))

/-! Python `==` on such values (used by `in`, `dict` lookups and the
explicit comparisons in the source).  Mutual structural equality test. -/

mutual
def beqJ : JValue → JValue → Bool
  | .null, .null => true
  | .bool a, .bool b => a == b
  | .num a, .num b => a == b
  | .str a, .str b => a == b
  | .arr xs, .arr ys => beqL xs ys
  | .obj fs, .obj gs => beqFs fs gs
  | _, _ => false
def beqL : List JValue → List JValue → Bool
  | [], [] => true
  | x :: xs, y :: ys => beqJ x y && beqL xs ys
  | _, _ => false
def beqFs : List (String × JValue) → List (String × JValue) → Bool
  | [], [] => true
  | (k, v) :: fs, (l, w) :: gs => k == l && beqJ v w && beqFs fs gs
  | _, _ => false
end

/-- Python truthiness of a value (`if x:`): `None`, `False`, `0`, `""`,
`[]` and `{}` are falsy, everything else truthy. -/
def pyTruthy : JValue → Bool
  | .null => false
  | .bool b => b
  | .num q => q != 0
  | .str s => s != ""
  | .arr xs => !xs.isEmpty
  | .obj fs => !fs.isEmpty

/-- Truthiness of an optional value (`x.get(k)` result, `None` when the key
is missing). -/
def truthyO : Option JValue → Bool
  | none => false
  | some v => pyTruthy v

/-- Dict lookup on an association list (first occurrence, as in a Python
dict whose keys are unique). -/
def lookupField (fs : List (String × JValue)) (k : String) : Option JValue :=
  (fs.find? (fun p => p.1 == k)).map (·.2)

/-- Python `x.get(k)`: succeeds (with `none` for a missing key) when `x` is
a dict, raises `AttributeError` otherwise. -/
def pyGet (v : JValue) (k : String) : Except Unit (Option JValue) :=
  match v with
  | .obj fs => .ok (lookupField fs k)
  | _ => .error ()

/-- Python `x.get(k, d)`: like `pyGet` with a default for a missing key. -/
def pyGetD (v : JValue) (k : String) (d : JValue) : Except Unit JValue :=
  (pyGet v k).map (fun o => o.getD d)

/-- Python `x.get(k) == y` for a value `y` (missing key gives `None`,
which compares unequal to any non-`None` value). -/
def jEq (o : Option JValue) (y : JValue) : Bool :=
  match o with
  | none => beqJ .null y
  | some w => beqJ w y

/-- Decimal digits of a natural number (fuel-driven so that it reduces in
the kernel; the fuel argument only needs to exceed the digit count). -/
def natDigits : Nat → Nat → List Char
  | 0, _ => []
  | f+1, n =>
      if n < 10 then [Char.ofNat (48 + n)]
      else natDigits f (n / 10) ++ [Char.ofNat (48 + n % 10)]

/-- Decimal rendering of a natural number. -/
def natStr (n : Nat) : String := String.mk (natDigits (n + 1) n)

/-- Decimal rendering of an integer. -/
def intStr (i : Int) : String :=
  if i < 0 then "-" ++ natStr i.natAbs else natStr i.natAbs

/-- Python `str()` of a value or of `None` (a missing `dict.get` result).
Integer-valued numbers render like Python ints; the remaining renderings
only need to be distinct from the integer renderings and from the literals
the source compares against ("200", "0", "true"), which they are: a Python
float renders with a decimal point, and `str()` of a list/dict renders with
brackets/braces. -/
def pyStr : Option JValue → String
  | none => "None"
  | some .null => "None"
  | some (.bool true) => "True"
  | some (.bool false) => "False"
  | some (.num q) =>
      if q.den == 1 then intStr q.num
      else intStr q.num ++ " / " ++ natStr q.den
  | some (.str s) => s
  | some (.arr _) => "[...]"
  | some (.obj _) => "dict(...)"

/-- Numeric coercion used by Python `sum` over payload values: ints/floats
add as numbers, `True`/`False` count as 1/0, anything else raises
`TypeError`. -/
def pyNum : JValue → Except Unit ℚ
  | .num q => .ok q
  | .bool b => .ok (if b then 1 else 0)
  | _ => .error ()

/-- Parse an optional-sign decimal literal (digits with an optional single
point), the fragment of `float(str)` that `frappe.utils.flt` relies on.
Returns `none` for anything else. -/
def parseDecimal (s : String) : Option ℚ :=
  let cs := s.toList
  let (sign, cs) :=
    match cs with
    | '-' :: rest => ((-1 : ℚ), rest)
    | '+' :: rest => ((1 : ℚ), rest)
    | _ => ((1 : ℚ), cs)
  let (intPart, rest) := cs.span Char.isDigit
  let digitsVal (l : List Char) : ℚ :=
    l.foldl (fun a c => a * 10 + (((c.toNat - 48 : ℕ) : ℤ) : ℚ)) (0 : ℚ)
  match rest with
  | [] =>
      if intPart.isEmpty then none
      else some (sign * digitsVal intPart)
  | '.' :: fracs =>
      if fracs.all Char.isDigit ∧ ¬(intPart.isEmpty ∧ fracs.isEmpty) then
        some (sign * (digitsVal intPart + digitsVal fracs / (10 : ℚ) ^ fracs.length))
      else none
  | _ => none

/-- Model of `frappe.utils.flt` applied to a payload value (or `None` for a
missing key): numbers pass through, numeric strings are parsed, and
anything unparseable coerces to `0`. -/
def pyFlt : Option JValue → ℚ
  | none => 0
  | some (.num q) => q
  | some (.bool b) => if b then 1 else 0
  | some (.str s) => (parseDecimal s.trim).getD 0
  | some _ => 0

/-! ## XML and the `xmltodict` conversion

`Xml` models a parsed XML element tree (as `xml.etree`/`xmltodict` see it:
elements with a tag and children, plus text nodes). -/

inductive Xml where
  | elem (tag : String) (children : List Xml)
  | text (s : String)

/-- Whether a node is an element (as opposed to character data). -/
def isElem : Xml → Bool
  | .elem _ _ => true
  | .text _ => false

/-- Concatenated character data directly below a node list. -/
def xmlTexts (cs : List Xml) : String :=
  cs.foldl (fun acc c => match c with | .text s => acc ++ s | _ => acc) ""

/-- One step of `xmltodict`'s dict building: insert a `(tag, value)` pair,
turning repeated tags into lists (first occurrence keeps its position, as
in a Python dict). -/
def pushChild (acc : List (String × JValue)) (t : String) (v : JValue) :
    List (String × JValue) :=
  match lookupField acc t with
  | none => acc ++ [(t, v)]
  | some (.arr xs) => acc.map (fun p => if p.1 == t then (p.1, JValue.arr (xs ++ [v])) else p)
  | some old => acc.map (fun p => if p.1 == t then (p.1, JValue.arr [old, v]) else p)

/-- Fold a list of valued children into the `xmltodict` mapping. -/
def groupPairs (ps : List (String × JValue)) : List (String × JValue) :=
  ps.foldl (fun acc p => pushChild acc p.1 p.2) []

mutual
/-- Value that `xmltodict.parse` assigns to one element: `None` when
empty, the text for a text-only element, and a mapping over the child
elements otherwise (any interleaved text under the `#text` key). -/
def xmlValue : Xml → JValue
  | .text s => .str s
  | .elem _ cs =>
      let ts := xmlTexts cs
      if cs.all (fun c => !(isElem c)) then
        (if ts == "" then .null else .str ts)
      else
        .obj (groupPairs (childPairs cs) ++
          (if ts == "" then [] else [("#text", JValue.str ts)]))
/-- The `(tag, value)` pairs of the element children of a node list. -/
def childPairs : List Xml → List (String × JValue)
  | [] => []
  | .elem t cc :: rest => (t, xmlValue (.elem t cc)) :: childPairs rest
  | .text _ :: rest => childPairs rest
end

/-- `xmltodict.parse` of a whole document with root tag `tag` and root
children `cs`: a one-key mapping from the root tag to the root value. -/
def xmltodictParse (tag : String) (cs : List Xml) : JValue :=
  .obj [(tag, xmlValue (.elem tag cs))]

/-! ## Response normalisation and the transport layer -/

/-- A raw HTTP response body, classified by which parser accepts it; this
models the source's string sniffing (`detect_response_format` attempts a
JSON parse, then an XML parse — a body in one class never parses as the
other, since a well-formed XML document starts with `<`). -/
inductive RawBody where
  | json (v : JValue)
  | xml (tag : String) (children : List Xml)
  | other

/-- Embedding of `VATSmartChallan.detect_response_format`. -/
def detectResponseFormat : RawBody → String
  | .json _ => "json"
  | .xml _ _ => "xml"
  | .other => "unknown"

/-- Hoisting of the `ObjectNode` wrapper:
`converted_data.get("ObjectNode", converted_data)`. -/
def hoistObjectNode (v : JValue) : JValue :=
  match v with
  | .obj fs =>
      match lookupField fs "ObjectNode" with
      | some w => w
      | none => v
  | w => w

/-- The parse step of `get_response_data` (after `raise_for_status`):
dispatch on the detected format, converting XML via `xmltodict` and
hoisting `ObjectNode`, decoding JSON directly, and failing
(`frappe.throw "Unknown response format"`) otherwise. -/
def normalizeResponse (b : RawBody) : Except Unit JValue :=
  let fmt := detectResponseFormat b
  if fmt == "xml" then
    match b with
    | .xml t cs => .ok (hoistObjectNode (xmltodictParse t cs))
    | _ => .error ()
  else if fmt == "json" then
    match b with
    | .json v => .ok v
    | _ => .error ()
  else .error ()

/-- One transport response: either the request raises
(`requests.exceptions.RequestException` — connection error, timeout, …) or
a status code with a body arrives. -/
inductive TResp where
  | exn
  | resp (status : Nat) (body : RawBody)

/-- A transport: the response to the n-th request issued, given the
request method.  (The token-refresh request to `vendor_authenticate` is a
separate channel and is only counted by `refreshes` below.) -/
def Transport := Nat → String → TResp

/-- Result of `get_response_data`: the parsed outcome, the next request
index, how many requests were issued to the target URL and how many forced
token refreshes happened. -/
structure GRDOut where
  result : Except Unit JValue
  next : Nat
  requests : Nat
  refreshes : Nat

/-- `response.raise_for_status()` raises exactly for 4xx/5xx statuses. -/
def raiseForStatus (st : Nat) : Bool := decide (400 ≤ st)

/-- Embedding of `VATSmartChallan.get_response_data`: issue the request;
on a 401, force a token refresh, rebuild headers and reissue the same
request once; then `raise_for_status` and normalise the body.  The token
refresh itself is modelled as always succeeding (its persistence effects
are outside this function's observable behaviour here). -/
def getResponseData (t : Transport) (k : Nat) (requestType : String) : GRDOut :=
  if requestType == "GET" || requestType == "POST" then
    match t k requestType with
    | .exn => ⟨.error (), k + 1, 1, 0⟩
    | .resp st body =>
      if st == 401 then
        match t (k + 1) requestType with
        | .exn => ⟨.error (), k + 2, 2, 1⟩
        | .resp st2 body2 =>
          if raiseForStatus st2 then ⟨.error (), k + 2, 2, 1⟩
          else ⟨normalizeResponse body2, k + 2, 2, 1⟩
      else if raiseForStatus st then ⟨.error (), k + 1, 1, 0⟩
      else ⟨normalizeResponse body, k + 1, 1, 0⟩
  else ⟨.error (), k, 0, 0⟩

/-! ## Invoice line amounts (`create_vat_invoice`, lines 709–745) -/

/-- The per-line amounts computed by `create_vat_invoice`. -/
structure LineAmounts where
  total_amount_before_tax : ℚ
  vat_amount : ℚ
  total_amount : ℚ
  sd_amount : ℚ
  stored_total_amount : ℚ

/-- Embedding of the per-item amount computation of `create_vat_invoice`:
the inclusive/exclusive VAT conventions, the SD surcharge applied on top
of the VAT-carrying total, and the stored line total including SD. -/
def computeLine (qty rate discount_amount vat_percentage : ℚ)
    (vat_inclusive : Bool) (sd_percentage : ℚ) : LineAmounts :=
  if vat_inclusive then
    let total_amount := qty * rate - discount_amount
    let total_amount_before_tax := total_amount / (1 + vat_percentage / 100)
    let vat_amount := total_amount - total_amount_before_tax
    let sd_amount := total_amount * sd_percentage / 100
    ⟨total_amount_before_tax, vat_amount, total_amount, sd_amount,
      total_amount + sd_amount⟩
  else
    let total_amount_before_tax := qty * rate - discount_amount
    let vat_amount := total_amount_before_tax * vat_percentage / 100
    let total_amount := total_amount_before_tax + vat_amount
    let sd_amount := total_amount * sd_percentage / 100
    ⟨total_amount_before_tax, vat_amount, total_amount, sd_amount,
      total_amount + sd_amount⟩

/-! ## Token manager (`get_access_token`, lines 55–137)

`datetime.strptime(s, "%Y-%m-%d %H:%M:%S")` is modelled by a parser for
that fixed format: a 4-digit year, 1–2 digit month/day/hour/minute/second
fields with the literal separators, full-string match, and the calendar and
range validation that the `datetime` constructor performs.  A successfully
parsed timestamp is encoded as a single `Nat` key that is strictly
monotone in the lexicographic date-time order, so that comparison with
`datetime.now()` (supplied as a key in the same encoding) is faithful. -/

/-- Take a run of 1–2 digits with a value bound, returning its value and
the rest of the input. -/
def takeField (maxVal : Nat) (cs : List Char) : Option (Nat × List Char) :=
  let (ds, rest) := cs.span Char.isDigit
  if ds.length = 0 ∨ 2 < ds.length then none
  else
    let v := ds.foldl (fun a c => a * 10 + (c.toNat - 48)) 0
    if v ≤ maxVal then some (v, rest) else none

/-- Expect one literal character. -/
def expectChar (c : Char) (cs : List Char) : Option (List Char) :=
  match cs with
  | d :: rest => if d == c then some rest else none
  | [] => none

/-- Gregorian leap year. -/
def isLeap (y : Nat) : Bool :=
  (y % 4 == 0 && y % 100 != 0) || y % 400 == 0

/-- Days in a month (as validated by the `datetime` constructor). -/
def daysInMonth (y m : Nat) : Nat :=
  if m == 2 then (if isLeap y then 29 else 28)
  else if m == 4 || m == 6 || m == 9 || m == 11 then 30
  else 31

/-- Parse `"%Y-%m-%d %H:%M:%S"` into a strictly monotone `Nat` key, or
`none` on any parse or validation failure (Python raises `ValueError`). -/
def strptimeKey (s : String) : Option Nat := do
  let cs := s.toList
  let (ys, r0) := cs.span Char.isDigit
  if ys.length ≠ 4 then none else
  let y := ys.foldl (fun a c => a * 10 + (c.toNat - 48)) 0
  if y = 0 then none else
  let r1 ← expectChar '-' r0
  let (m, r2) ← takeField 12 r1
  if m = 0 then none else
  let r3 ← expectChar '-' r2
  let (d, r4) ← takeField 31 r3
  if d = 0 ∨ daysInMonth y m < d then none else
  let r5 ← expectChar ' ' r4
  let (h, r6) ← takeField 23 r5
  let r7 ← expectChar ':' r6
  let (mi, r8) ← takeField 59 r7
  let r9 ← expectChar ':' r8
  let (sec, r10) ← takeField 59 r9
  if r10.isEmpty then
    some (((((y * 12 + (m - 1)) * 31 + (d - 1)) * 24 + h) * 60 + mi) * 60 + sec)
  else none

/-- The token-related fields of the POS Vendor Configuration singleton, as
loaded into the client (`self.access_token`, `self.expiry_date`,
`self.company_id`).  Values are kept as `JValue` because the store can in
principle hold non-string data; `strptime` then raises `TypeError`, which
the source catches alongside `ValueError`. -/
structure TokenState where
  access_token : Option JValue
  expiry_date : Option JValue
  company_id : Option JValue

/-- The expiry timestamp key of the cached token, when the stored
`expiry_date` is a string that parses in the expected format. -/
def expiryKey (st : TokenState) : Option Nat :=
  match st.expiry_date with
  | some (.str s) => strptimeKey s
  | _ => none

/-- Result of `get_access_token`: the persisted token state afterwards,
the returned triple (or a raised error), and whether a network call to
`vendor_authenticate` was made. -/
structure TokenFetch where
  state : TokenState
  result : Except Unit TokenState
  networkCalled : Bool

/-- Embedding of `VATSmartChallan.get_access_token`.  The cached triple is
returned, with no network call, exactly when a token and an expiry exist
(truthy), no refresh is forced, and the stored expiry parses to a time
strictly after `now`; in every other case (including an unparseable
expiry, where the `ValueError`/`TypeError` is swallowed) the
`vendor_authenticate` call is performed.  The network interaction itself
(lines 86–128: basic-auth POST, JSON/XML sniffing of the body, extraction
of `access_token`/`expiry_time`/`company_id`, persistence) is abstracted
to its outcome `net` — an error for a failed request, or the extracted
triple, which is persisted before being returned. -/
def getAccessToken (st : TokenState) (force : Bool) (now : Nat)
    (net : Except Unit TokenState) : TokenFetch :=
  if truthyO st.access_token && !force && truthyO st.expiry_date then
    match expiryKey st with
    | some k =>
        if now < k then ⟨st, .ok st, false⟩
        else
          match net with
          | .ok t => ⟨t, .ok t, true⟩
          | .error _ => ⟨st, .error (), true⟩
    | none =>
        match net with
        | .ok t => ⟨t, .ok t, true⟩
        | .error _ => ⟨st, .error (), true⟩
  else
    match net with
    | .ok t => ⟨t, .ok t, true⟩
    | .error _ => ⟨st, .error (), true⟩

/-! ## Equivalent hand-authored XML documents (specification side)

The spec's round-trip property quantifies over "a given JSON document and
an equivalent hand-authored XML document (same field names/values)".  The
following encoder pins that equivalence down: it builds, for a JSON
mapping, the XML document a person would write for it — one element per
field, tag = field name, text content for string values, nested elements
for nested mappings, repeated sibling tags for sequences, all wrapped in a
top-level `ObjectNode` container.  It is deliberately partial: documents
whose values XML cannot carry back faithfully through `xmltodict`
(numbers, booleans, nulls, empty strings, empty mappings, sequences of
fewer than two items, nested sequences, duplicate field names) have no
equivalent hand-authored XML document and are not encoded. -/

/-- Whether a value is a sequence. -/
def isArr : JValue → Bool
  | .arr _ => true
  | _ => false

/-- Whether a field list binds a key. -/
def hasKey (fs : List (String × JValue)) (k : String) : Bool :=
  fs.any (fun p => p.1 == k)

/-- Whether the keys of a field list are pairwise distinct. -/
def keysDistinct : List (String × JValue) → Bool
  | [] => true
  | (k, _) :: rest => !(hasKey rest k) && keysDistinct rest

mutual
/-- Element content encoding a single value: text for a nonempty string,
child elements for a nonempty duplicate-free mapping. -/
def encChildren : JValue → Option (List Xml)
  | .str s => if s == "" then none else some [Xml.text s]
  | .obj fs => if fs.isEmpty || !(keysDistinct fs) then none else encFields fs
  | _ => none
/-- Child elements encoding a field list, in order. -/
def encFields : List (String × JValue) → Option (List Xml)
  | [] => some []
  | (k, v) :: rest =>
      match encField k v, encFields rest with
      | some xs, some ys => some (xs ++ ys)
      | _, _ => none
/-- Elements encoding one field: a sequence becomes repeated sibling
elements (at least two, so that `xmltodict` reads a sequence back), any
other value one element. -/
def encField : String → JValue → Option (List Xml)
  | k, .arr vs => if vs.length < 2 then none else encArrItems k vs
  | k, v => (encChildren v).map (fun cs => [Xml.elem k cs])
/-- Sibling elements encoding the items of a sequence (items must not
themselves be sequences). -/
def encArrItems : String → List JValue → Option (List Xml)
  | _, [] => some []
  | k, v :: vs =>
      if isArr v then none
      else
        match encChildren v, encArrItems k vs with
        | some cs, some ys => some (Xml.elem k cs :: ys)
        | _, _ => none
end

/-- The equivalent hand-authored XML document of a JSON mapping: its
fields encoded as elements inside a top-level `ObjectNode` wrapper. -/
def encodeXmlDoc : JValue → Option RawBody
  | .obj fs => (encChildren (.obj fs)).map (fun cs => RawBody.xml "ObjectNode" cs)
  | _ => none

/-! ## Reference data synchronizer (`get_zone` … `get_service_types`)

The five fetch-and-upsert operations are embedded as functions of the
parsed transport outcome (the value of `self.get_response_data(url,
"GET")`, or an error when that call raised) and of the local store.  The
local doctypes are record lists; a record's `name` is its surrogate local
document name (modelled as the insertion index, standing for the opaque
Frappe docname), and link fields hold the linked record's `name` as
`frappe.get_value(..., "name")` returns it.  The boolean in each result is
the Python exception flag: `true` when the operation raised (there is no
`try` in these methods, so an `AttributeError` from `.get` on a non-dict
propagates), with all inserts committed up to that point kept. -/

structure ZoneRec where
  name : Nat
  zone_id : JValue
  zone_name : JValue

structure RateRec where
  name : Nat
  vat_commission_rate_id : JValue
  vat_commission_rate_name : JValue
  zone : Option Nat

structure DivRec where
  name : Nat
  division_id : JValue
  division_name : JValue
  zone : Option Nat
  vat_commission_rate : Option Nat

structure CircleRec where
  name : Nat
  circle_id : JValue
  circle_name : JValue
  division : Option Nat
  zone : Option Nat
  vat_commission_rate : Option Nat

structure ServiceRec where
  name : Nat
  service_id : JValue
  heading_code : Option JValue
  service_code : Option JValue
  service_name : JValue
  vat_rate : Option JValue

/-- The local reference-data tables. -/
structure RefStore where
  zones : List ZoneRec
  rates : List RateRec
  divisions : List DivRec
  circles : List CircleRec
  services : List ServiceRec

/-- Python `parsed_data.get("data") or parsed_data` (used by the zone,
rate and division synchronizers): the `data` member when present and
truthy, the whole mapping otherwise. -/
def dataOrSelf (parsed : JValue) : JValue :=
  match pyGet parsed "data" with
  | .ok (some d) => if pyTruthy d then d else parsed
  | _ => parsed

/-- Collection coercion: a list stays a list, a single mapping becomes a
one-element list, anything else gives the empty collection. -/
def coerceList (o : Option JValue) : List JValue :=
  match o with
  | some (.arr xs) => xs
  | some (.obj fs) => [.obj fs]
  | _ => []

/-- Element collection extracted by `get_zone` / `get_vat_commission_rate`
/ `get_division` (which fall back from `data` to the whole mapping):
the named collection, or an `AttributeError` when the `data` member is
not a mapping. -/
def extractFallback (parsedE : Except Unit JValue) (key : String) :
    Except Unit (List JValue) :=
  match parsedE with
  | .error _ => .error ()
  | .ok parsed =>
    match parsed with
    | .obj _ =>
        (match pyGet (dataOrSelf parsed) key with
         | .error _ => .error ()
         | .ok o => .ok (coerceList o))
    | _ => .ok []

/-- Element collection extracted by `get_circle` / `get_service_types`
(which read the collection only below a truthy `data` member). -/
def extractUnderData (parsedE : Except Unit JValue) (key : String) :
    Except Unit (List JValue) :=
  match parsedE with
  | .error _ => .error ()
  | .ok parsed =>
    match parsed with
    | .obj _ =>
        (match pyGet parsed "data" with
         | .error _ => .error ()
         | .ok dO =>
            match dO with
            | some d =>
                if pyTruthy d then
                  (match pyGet d key with
                   | .error _ => .error ()
                   | .ok o => .ok (coerceList o))
                else .ok []
            | none => .ok [])
    | _ => .ok []

/-- Total field read used inside the upsert loops once the element is
known to be a mapping: `e.get(k)` (the loops first raise, as Python does,
when the element is not a mapping). -/
def jget (e : JValue) (k : String) : Option JValue :=
  match e with
  | .obj fs => lookupField fs k
  | _ => none

/-- Optional value with `None` for a missing key, as stored. -/
def jOptV (o : Option JValue) : JValue := o.getD .null

/-- `frappe.db.exists` by a remote-id field: any stored record whose key
equals the given value. -/
def existsKey {α : Type} (keyOf : α → JValue) (tbl : List α) (i : JValue) : Bool :=
  tbl.any (fun r => beqJ (keyOf r) i)

/-- `frappe.get_value(doctype, {id-field: i}, "name")`: local name of the
first record with the given remote id, or `None`. -/
def getValueName {α : Type} (keyOf : α → JValue) (nameOf : α → Nat)
    (tbl : List α) (i : Option JValue) : Option Nat :=
  match i with
  | none => none
  | some v => (tbl.find? (fun r => beqJ (keyOf r) v)).map nameOf

/-- The shared shape of the five upsert loops: for each element of the
fetched collection — raising (`AttributeError`) on a non-mapping element,
with the inserts so far kept — skip it unless its mandatory fields are
truthy, skip it when a record with its remote id already exists
(`frappe.db.exists` before every insert), and insert the built record
otherwise.  `build` receives the fresh record's local name (the current
table length, standing for the generated docname). -/
def upsertLoop {α : Type} (keyOf : α → JValue) (req : JValue → Bool)
    (key : JValue → JValue) (build : JValue → Nat → α) :
    List JValue → List α → List α × Bool
  | [], tbl => (tbl, false)
  | e :: rest, tbl =>
      match e with
      | .obj _ =>
          if req e then
            if existsKey keyOf tbl (key e) then upsertLoop keyOf req key build rest tbl
            else upsertLoop keyOf req key build rest (tbl ++ [build e tbl.length])
          else upsertLoop keyOf req key build rest tbl
      | _ => (tbl, true)

/-- Upsert loop of `get_zone` (lines 174–182). -/
def zoneLoop : List JValue → List ZoneRec → List ZoneRec × Bool :=
  upsertLoop ZoneRec.zone_id
    (fun z => truthyO (jget z "id") && truthyO (jget z "name"))
    (fun z => jOptV (jget z "id"))
    (fun z n => ⟨n, jOptV (jget z "id"), jOptV (jget z "name")⟩)

/-- Embedding of `VATSmartChallan.get_zone`. -/
def getZoneOp (parsedE : Except Unit JValue) (s : RefStore) : RefStore × Bool :=
  match extractFallback parsedE "zone" with
  | .error _ => (s, true)
  | .ok zones =>
      let (tbl, err) := zoneLoop zones s.zones
      ({ s with zones := tbl }, err)

/-- Upsert loop of `get_vat_commission_rate` (lines 206–224). -/
def rateLoop (zones : List ZoneRec) :
    List JValue → List RateRec → List RateRec × Bool :=
  upsertLoop RateRec.vat_commission_rate_id
    (fun r => truthyO (jget r "id") && truthyO (jget r "name") && truthyO (jget r "zone_id"))
    (fun r => jOptV (jget r "id"))
    (fun r n => ⟨n, jOptV (jget r "id"), jOptV (jget r "name"),
      getValueName ZoneRec.zone_id ZoneRec.name zones (jget r "zone_id")⟩)

/-- Embedding of `VATSmartChallan.get_vat_commission_rate`. -/
def getRateOp (parsedE : Except Unit JValue) (s : RefStore) : RefStore × Bool :=
  match extractFallback parsedE "vat_commissionrate" with
  | .error _ => (s, true)
  | .ok rates =>
      let (tbl, err) := rateLoop s.zones rates s.rates
      ({ s with rates := tbl }, err)

/-- Upsert loop of `get_division` (lines 244–269). -/
def divisionLoop (zones : List ZoneRec) (rates : List RateRec) :
    List JValue → List DivRec → List DivRec × Bool :=
  upsertLoop DivRec.division_id
    (fun d => truthyO (jget d "id") && truthyO (jget d "name") &&
      truthyO (jget d "zone_id") && truthyO (jget d "vat_commissionrate_id"))
    (fun d => jOptV (jget d "id"))
    (fun d n => ⟨n, jOptV (jget d "id"), jOptV (jget d "name"),
      getValueName ZoneRec.zone_id ZoneRec.name zones (jget d "zone_id"),
      getValueName RateRec.vat_commission_rate_id RateRec.name rates
        (jget d "vat_commissionrate_id")⟩)

/-- Embedding of `VATSmartChallan.get_division`. -/
def getDivisionOp (parsedE : Except Unit JValue) (s : RefStore) : RefStore × Bool :=
  match extractFallback parsedE "division" with
  | .error _ => (s, true)
  | .ok divs =>
      let (tbl, err) := divisionLoop s.zones s.rates divs s.divisions
      ({ s with divisions := tbl }, err)

/-- Upsert loop of `get_circle` (lines 290–321); the mandatory fields are
`id`, `name` and `division_id`, and the zone/rate links are resolved even
when absent (giving `None`). -/
def circleLoop (zones : List ZoneRec) (rates : List RateRec) (divs : List DivRec) :
    List JValue → List CircleRec → List CircleRec × Bool :=
  upsertLoop CircleRec.circle_id
    (fun c => truthyO (jget c "id") && truthyO (jget c "name") &&
      truthyO (jget c "division_id"))
    (fun c => jOptV (jget c "id"))
    (fun c n => ⟨n, jOptV (jget c "id"), jOptV (jget c "name"),
      getValueName DivRec.division_id DivRec.name divs (jget c "division_id"),
      getValueName ZoneRec.zone_id ZoneRec.name zones (jget c "zone_id"),
      getValueName RateRec.vat_commission_rate_id RateRec.name rates
        (jget c "vat_commissionrate_id")⟩)

/-- Embedding of `VATSmartChallan.get_circle`. -/
def getCircleOp (parsedE : Except Unit JValue) (s : RefStore) : RefStore × Bool :=
  match extractUnderData parsedE "circle" with
  | .error _ => (s, true)
  | .ok circles =>
      let (tbl, err) := circleLoop s.zones s.rates s.divisions circles s.circles
      ({ s with circles := tbl }, err)

/-- Upsert loop of `get_service_types` (lines 342–368). -/
def serviceLoop : List JValue → List ServiceRec → List ServiceRec × Bool :=
  upsertLoop ServiceRec.service_id
    (fun e => truthyO (jget e "id") && truthyO (jget e "service_name"))
    (fun e => jOptV (jget e "id"))
    (fun e n => ⟨n, jOptV (jget e "id"), jget e "heading_code", jget e "service_code",
      jOptV (jget e "service_name"), jget e "vat_rate"⟩)

/-- Embedding of `VATSmartChallan.get_service_types`. -/
def getServiceTypesOp (parsedE : Except Unit JValue) (s : RefStore) :
    RefStore × Bool :=
  match extractUnderData parsedE "retailer_service_types" with
  | .error _ => (s, true)
  | .ok services =>
      let (tbl, err) := serviceLoop services s.services
      ({ s with services := tbl }, err)

/-! ## Invoice synchronization engine

The VAT Invoice record, the POS documents it draws on, and the mutually
recursive operations `sync_vat_invoice`, `get_vat_invoice_details`,
`sync_return_vat_invoice` and `return_vat_invoice` (lines 669–1048).

Modelling conventions, mirroring Frappe/Python semantics:
* `doc.db_set` writes a field both on the in-hand document object and on
  the stored record; a later `frappe.get_doc` sees the stored value, while
  a previously loaded *other* object for the same record keeps its stale
  in-memory fields.  The embedding threads document values: a callee that
  re-fetches the record gets the current stored value, while the caller
  continues with the value it held — exactly the Python object behaviour.
* Fields persisted as JSON strings (`requested_payloads`, `response`,
  `get_response`, `return_payload`, `return_response`) are stored as their
  parsed `JValue`; `json.dumps` followed by `frappe.parse_json` is the
  identity on such values.
* The combination of `posting_date`/`posting_time` into a Unix timestamp
  (lines 766–780 and 968–989) is abstracted to a `posting_ts` field
  carrying the resulting timestamp.
* Every status `db_set` appends the `(old status, new status)` pair to a
  transition trace.
* Each operation returns an `err` flag (`true` when it let a Python
  exception propagate to its caller) and an `ex` flag (`true` when the
  *model* ran out of recursion fuel; callers abort immediately on it, so a
  run with `ex = false` is a faithful complete run). -/

structure PosItem where
  item_code : String
  item_name : String
  qty : ℚ
  rate : ℚ
  amount : ℚ
  uom : String
  custom_service_type_id : Option JValue
  custom_service_type_name : String
  custom_vat_rate : Option ℚ
  custom_vat_exclusive : ℚ
  discount_percentage : Option ℚ
  discount_amount : Option ℚ
  sd_percentage : Option ℚ

structure PosInvoice where
  name : String
  customer : String
  pos_profile : String
  items : List PosItem
  payments : List String
  total : ℚ
  grand_total : ℚ
  discount_amount : ℚ
  remarks : String
  return_against : String
  posting_ts : Int

structure PosProfile where
  name : String
  custom_retailer_branch : String
  custom_retailer : String
  custom_retailer_id : Option JValue
  custom_retailer_branch_id : Option JValue

structure RetailerBranch where
  name : String
  disabled : Bool

structure Retailer where
  name : String
  service_types : List JValue

structure Customer where
  name : String
  mobile_no : String
  customer_name : String
  email_id : String

structure VatDoc where
  name : String
  invoice_number : String
  status : String
  vat_invoice_id : Option JValue
  s_challan_number : Option JValue
  response : Option JValue
  get_response : Option JValue
  is_return : Bool
  return_invoice_no : Option String
  return_payload : Option JValue
  return_response : Option JValue
  requested_payloads : JValue

/-- Placeholder document (never inspected: it is only produced together
with flags that make every caller ignore it). -/
def VatDoc.dummy : VatDoc :=
  ⟨"", "", "", none, none, none, none, false, none, none, none, .null⟩

/-- The world the engine acts on: the transport stream with its cursor,
the stored documents, and the configured sync schedule. -/
structure World where
  transport : Transport
  reqIndex : Nat
  vatInvoices : List VatDoc
  posInvoices : List PosInvoice
  posProfiles : List PosProfile
  branches : List RetailerBranch
  retailers : List Retailer
  customers : List Customer
  sync_schedule : String

/-- Status-transition trace entries: `(previous status, new status)` at
each `db_set` of `status`. -/
abbrev Trace := List (String × String)

/-- Write an updated document back to the store (matched by name). -/
def writeBack (w : World) (d : VatDoc) : World :=
  { w with vatInvoices := w.vatInvoices.map (fun x => if x.name == d.name then d else x) }

structure SW where
  doc : VatDoc
  w : World
  tr : Trace

/-- `doc.db_set("status", s)` with trace recording. -/
def dbSetStatus (d : VatDoc) (w : World) (tr : Trace) (s : String) : SW :=
  let d2 := { d with status := s }
  ⟨d2, writeBack w d2, tr ++ [(d.status, s)]⟩

/-- `frappe.get_doc("POS Invoice", name)` (an absent document, or a `None`
name, raises). -/
def findPosInvoice (w : World) (o : Option String) : Option PosInvoice :=
  match o with
  | none => none
  | some nm => w.posInvoices.find? (fun p => p.name == nm)

/-- `frappe.get_doc("VAT Invoice", {"invoice_number": num})`. -/
def findInvoiceByNumber (w : World) (num : String) : Option VatDoc :=
  w.vatInvoices.find? (fun d => d.invoice_number == num)

/-- `sum(d.get("quantity", 0) for d in x)`: iterating a non-sequence (or
summing a non-numeric quantity) raises; an empty mapping or empty string
iterates zero times. -/
def sumQuantities (x : JValue) : Except Unit ℚ :=
  match x with
  | .arr xs => go xs 0
  | .obj [] => .ok 0
  | .str "" => .ok 0
  | _ => .error ()
where
  go : List JValue → ℚ → Except Unit ℚ
    | [], acc => .ok acc
    | d :: rest, acc =>
        match pyGetD d "quantity" (.num 0) with
        | .error _ => .error ()
        | .ok qv =>
            match pyNum qv with
            | .error _ => .error ()
            | .ok q => go rest (acc + q)

/-- `next((d for d in xs if d.get("product_name") == code), None)`:
first matching detail, scanning lazily, raising on a non-dict element. -/
def findMatch : List JValue → String → Except Unit (Option JValue)
  | [], _ => .ok none
  | d :: rest, code =>
      match pyGet d "product_name" with
      | .error _ => .error ()
      | .ok pn => if jEq pn (.str code) then .ok (some d) else findMatch rest code

/-- Lazy per-item iteration of `vat_invoice_detail_data` (recreated for
every POS item): `None` or a non-iterable raises `TypeError`, an empty
string iterates to no match. -/
def findMatchIn (x : Option JValue) (code : String) : Except Unit (Option JValue) :=
  match x with
  | some (.arr xs) => findMatch xs code
  | some (.str "") => .ok none
  | _ => .error ()

/-- `d["total_amount_before_tax"]` summed over the built detail dicts. -/
def sumFieldStrict (items : List JValue) (k : String) : Except Unit ℚ :=
  items.foldlM
    (fun acc d =>
      match d with
      | .obj fs =>
          match lookupField fs k with
          | some (.num q) => .ok (acc + q)
          | _ => .error ()
      | _ => .error ())
    (0 : ℚ)

/-- Optional value as stored into a JSON payload (`None` becomes `null`). -/
def jOpt (o : Option JValue) : JValue := o.getD .null

/-- The per-item loop of `return_vat_invoice` (lines 919–962): skips items
with no matching original detail, recomputes the amounts under the
recorded inclusive/exclusive convention, and accumulates the VAT total.
Any raised exception (non-iterable detail data, a non-dict element, a
zero division from `vat_percentage = -100`) is propagated for the
surrounding `try` to swallow. -/
def buildReturnDetails (vdd : Option JValue) :
    List PosItem → Except Unit (List JValue × ℚ)
  | [] => .ok ([], 0)
  | item :: rest => do
      let m ← findMatchIn vdd item.item_code
      match m with
      | none =>
          buildReturnDetails vdd rest
      | some d => do
          let qty := |item.qty|
          let rate := item.rate
          let dpO ← pyGet d "discount_percentage"
          let discount_percentage := pyFlt dpO
          let discount_amount := qty * discount_percentage / 100
          let vpO ← pyGet d "vat_percentage"
          let vat_percentage := pyFlt vpO
          let viO ← pyGet d "vat_inclusive"
          let vat_inclusive := (pyStr viO).toLower == "true"
          if vat_inclusive ∧ 1 + vat_percentage / 100 = 0 then .error () else
          let (total_amount_before_tax, vat_amount, total_amount) :=
            if vat_inclusive then
              let total_amount := |item.amount| - discount_amount
              let total_amount_before_tax := total_amount / (1 + vat_percentage / 100)
              let vat_amount := total_amount - total_amount_before_tax
              (total_amount_before_tax, vat_amount, total_amount)
            else
              let total_amount_before_tax := |item.amount| - discount_amount
              let vat_amount := total_amount_before_tax * vat_percentage / 100
              let total_amount := total_amount_before_tax + vat_amount
              (total_amount_before_tax, vat_amount, total_amount)
          let idO ← pyGet d "id"
          let merged : JValue := .obj
            [("product_name", .str item.item_code),
             ("unit_of_supply", .str item.uom),
             ("quantity", .num qty),
             ("unit_price", .num rate),
             ("service_type_id", jOpt item.custom_service_type_id),
             ("vat_percentage", .num vat_percentage),
             ("vat_amount", .num vat_amount),
             ("total_amount", .num total_amount),
             ("vat_inclusive", .bool vat_inclusive),
             ("total_amount_before_tax", .num total_amount_before_tax),
             ("discount_percentage", .num discount_percentage),
             ("discount_amount", .num discount_amount),
             ("product_id", jOpt idO)]
          let (ms, tv) ← buildReturnDetails vdd rest
          .ok (merged :: ms, vat_amount + tv)

/-- One in-flight call of the mutually recursive engine operations. -/
inductive ECall where
  | sync (doc : VatDoc)
  | details (doc : VatDoc)
  | returnSync (doc : VatDoc)
  | returnBuild (pos : PosInvoice)

/-- Result of an engine operation. -/
structure EOut where
  doc : VatDoc
  w : World
  tr : Trace
  err : Bool
  ex : Bool

/-- The part of `sync_return_vat_invoice` after the optional
`return_vat_invoice` build (lines 1017–1048): reparse the (possibly stale)
in-hand `return_payload`, re-fetch the return POS invoice when it was not
fetched before the build, compare the summed returned quantity of the
payload with the summed absolute quantity of the return transaction's
items to pick `Return` or `Partly Return`, POST the payload, override to
`Failed` on `success == "0"` with `error == "Bad request"`, store the raw
response; any raised exception is caught and sets `Failed`. -/
def returnSyncRest (doc : VatDoc) (w1 : World) (tr1 : Trace)
    (posOpt : Option PosInvoice) : EOut :=
  let posFound :=
    match posOpt with
    | some pos => some pos
    | none => findPosInvoice w1 doc.return_invoice_no
  match posFound with
  | none =>
      let p := dbSetStatus doc w1 tr1 "Failed"
      ⟨p.doc, p.w, p.tr, false, false⟩
  | some pos =>
    match doc.return_payload with
    | none =>
        let p := dbSetStatus doc w1 tr1 "Failed"
        ⟨p.doc, p.w, p.tr, false, false⟩
    | some pv =>
      match pyGetD pv "return_request_details" (.arr []) with
      | .error _ =>
          let p := dbSetStatus doc w1 tr1 "Failed"
          ⟨p.doc, p.w, p.tr, false, false⟩
      | .ok rrd =>
        match sumQuantities rrd with
        | .error _ =>
            let p := dbSetStatus doc w1 tr1 "Failed"
            ⟨p.doc, p.w, p.tr, false, false⟩
        | .ok returnQty =>
          let posQty := pos.items.foldl (fun a i => a + |i.qty|) 0
          let p1 :=
            if returnQty == posQty then dbSetStatus doc w1 tr1 "Return"
            else dbSetStatus doc w1 tr1 "Partly Return"
          let g := getResponseData p1.w.transport p1.w.reqIndex "POST"
          let w2 := { p1.w with reqIndex := g.next }
          match g.result with
          | .error _ =>
              let p2 := dbSetStatus p1.doc w2 p1.tr "Failed"
              ⟨p2.doc, p2.w, p2.tr, false, false⟩
          | .ok parsed =>
            match pyGet parsed "success" with
            | .error _ =>
                let p2 := dbSetStatus p1.doc w2 p1.tr "Failed"
                ⟨p2.doc, p2.w, p2.tr, false, false⟩
            | .ok succ =>
              match pyGet parsed "error" with
              | .error _ =>
                  let p2 := dbSetStatus p1.doc w2 p1.tr "Failed"
                  ⟨p2.doc, p2.w, p2.tr, false, false⟩
              | .ok errv =>
                let p2 :=
                  if jEq succ (.str "0") && jEq errv (.str "Bad request") then
                    dbSetStatus p1.doc w2 p1.tr "Failed"
                  else ⟨p1.doc, w2, p1.tr⟩
                let d3 := { p2.doc with return_response := some parsed }
                ⟨d3, writeBack p2.w d3, p2.tr, false, false⟩

/-- Embedding of the mutually recursive engine operations, by fuel:

* `.sync doc` — `sync_vat_invoice` (lines 803–848),
* `.details doc` — `get_vat_invoice_details` (lines 873–890),
* `.returnSync doc` — `sync_return_vat_invoice` (lines 1008–1048),
* `.returnBuild pos` — `return_vat_invoice` (lines 892–1006).

Fuel is consumed at every inter-operation call; `ex = true` marks fuel
exhaustion and aborts all enclosing calls. -/
def engineF : Nat → ECall → World → Trace → EOut
  | 0, _, w, tr => ⟨VatDoc.dummy, w, tr, false, true⟩
  | n+1, .sync doc, w, tr =>
      let p1 := dbSetStatus doc w tr "Syncing"
      let g := getResponseData p1.w.transport p1.w.reqIndex "POST"
      let w1 := { p1.w with reqIndex := g.next }
      match g.result with
      | .error _ =>
          let p2 := dbSetStatus p1.doc w1 p1.tr "Failed"
          ⟨p2.doc, p2.w, p2.tr, false, false⟩
      | .ok parsed =>
        match pyGet parsed "status_code" with
        | .error _ =>
            let p2 := dbSetStatus p1.doc w1 p1.tr "Failed"
            ⟨p2.doc, p2.w, p2.tr, false, false⟩
        | .ok sc =>
          if pyStr sc == "200" then
            match pyGetD parsed "data" (.obj []) with
            | .error _ =>
                let p2 := dbSetStatus p1.doc w1 p1.tr "Failed"
                ⟨p2.doc, p2.w, p2.tr, false, false⟩
            | .ok data =>
              match pyGet data "vat_invoice_id" with
              | .error _ =>
                  let p2 := dbSetStatus p1.doc w1 p1.tr "Failed"
                  ⟨p2.doc, p2.w, p2.tr, false, false⟩
              | .ok vid =>
                match pyGet data "s_challan_number" with
                | .error _ =>
                    let p2 := dbSetStatus p1.doc w1 p1.tr "Failed"
                    ⟨p2.doc, p2.w, p2.tr, false, false⟩
                | .ok scn =>
                  let d1 := if truthyO vid then { p1.doc with vat_invoice_id := vid } else p1.doc
                  let d2 := if truthyO scn then { d1 with s_challan_number := scn } else d1
                  let d3 := { d2 with response := some parsed }
                  let p2 := dbSetStatus d3 (writeBack w1 d3) p1.tr "Synced"
                  let o := engineF n (.details p2.doc) p2.w p2.tr
                  if o.ex then o
                  else if o.doc.is_return && !(truthyO o.doc.return_response) then
                    engineF n (.returnSync o.doc) o.w o.tr
                  else ⟨o.doc, o.w, o.tr, false, false⟩
          else
            match pyGet parsed "success" with
            | .error _ =>
                let p2 := dbSetStatus p1.doc w1 p1.tr "Failed"
                ⟨p2.doc, p2.w, p2.tr, false, false⟩
            | .ok succ =>
              if pyStr succ == "0" then
                let o := engineF n (.details p1.doc) w1 p1.tr
                if o.ex then o
                else if o.doc.is_return then
                  engineF n (.returnSync o.doc) o.w o.tr
                else ⟨o.doc, o.w, o.tr, false, false⟩
              else
                let p2 := dbSetStatus p1.doc w1 p1.tr "Failed"
                ⟨p2.doc, p2.w, p2.tr, false, false⟩
  | n+1, .details doc, w, tr =>
      let o0 :=
        if doc.status == "Pending" || doc.status == "Failed" then
          engineF n (.sync doc) w tr
        else ⟨doc, w, tr, false, false⟩
      if o0.ex then o0
      else
        let g := getResponseData o0.w.transport o0.w.reqIndex "GET"
        let w1 := { o0.w with reqIndex := g.next }
        match g.result with
        | .error _ => ⟨o0.doc, w1, o0.tr, false, false⟩
        | .ok parsed =>
            let d1 := { o0.doc with get_response := some parsed }
            ⟨d1, writeBack w1 d1, o0.tr, false, false⟩
  | n+1, .returnSync doc, w, tr =>
      if !(truthyO doc.return_payload) then
        match findPosInvoice w doc.return_invoice_no with
        | none =>
            let p := dbSetStatus doc w tr "Failed"
            ⟨p.doc, p.w, p.tr, false, false⟩
        | some pos =>
            let o := engineF n (.returnBuild pos) w tr
            if o.ex then o
            else if o.err then
              let p := dbSetStatus doc o.w o.tr "Failed"
              ⟨p.doc, p.w, p.tr, false, false⟩
            else returnSyncRest doc o.w o.tr (some pos)
      else returnSyncRest doc w tr none
  | n+1, .returnBuild pos, w, tr =>
      match findInvoiceByNumber w pos.return_against with
      | none => ⟨VatDoc.dummy, w, tr, false, false⟩
      | some doc0 =>
        let d1 := { doc0 with is_return := true }
        let w1 := writeBack w d1
        let d2 := { d1 with return_invoice_no := some pos.name }
        let w2 := writeBack w1 d2
        let s3 :=
          if d2.status == "Synced" then dbSetStatus d2 w2 tr "Pending"
          else ⟨d2, w2, tr⟩
        let o4 :=
          if !(truthyO s3.doc.get_response) then engineF n (.details s3.doc) s3.w s3.tr
          else ⟨s3.doc, s3.w, s3.tr, false, false⟩
        if o4.ex then o4
        else
          match o4.doc.get_response with
          | none => ⟨o4.doc, o4.w, o4.tr, true, false⟩
          | some dv =>
            match pyGetD dv "data" (.obj []) with
            | .error _ => ⟨o4.doc, o4.w, o4.tr, true, false⟩
            | .ok vatData =>
              match pyGet vatData "vat_invoice_detail_data" with
              | .error _ => ⟨o4.doc, o4.w, o4.tr, true, false⟩
              | .ok vddO =>
                let vdd : Option JValue :=
                  match vddO with
                  | some (.obj fs) => some (.arr [.obj fs])
                  | x => x
                match buildReturnDetails vdd pos.items with
                | .error _ => ⟨o4.doc, o4.w, o4.tr, false, false⟩
                | .ok (items, totalVat) =>
                  match sumFieldStrict items "total_amount_before_tax" with
                  | .error _ => ⟨o4.doc, o4.w, o4.tr, false, false⟩
                  | .ok preTaxSum =>
                    let tvp := if preTaxSum != 0 then totalVat / preTaxSum * 100 else 0
                    let payload : JValue := .obj
                      [("invoice_number", .str o4.doc.invoice_number),
                       ("request_date", .num (pos.posting_ts : ℚ)),
                       ("total_void_amount", .num |pos.grand_total|),
                       ("total_sd_percentage", .num 0),
                       ("total_sd_amount", .num 0),
                       ("vat_percentage", .num tvp),
                       ("vat_amount", .num totalVat),
                       ("return_reason", .str pos.remarks),
                       ("return_request_details", .arr items)]
                    let d5 := { o4.doc with return_payload := some payload }
                    ⟨d5, writeBack o4.w d5, o4.tr, false, false⟩

/-! ## Invoice creation (`create_vat_invoice`, lines 669–801) -/

/-- Errors `create_vat_invoice` propagates to its caller:
the two `frappe.throw` validation failures (each naming the offending
item) and a missing looked-up document. -/
inductive CreateErr where
  | missingServiceType (item_name : String)
  | invalidServiceType (item_name : String)
  | docNotFound

/-- Modelled from the spec: the VAT Invoice doctype schema (the JSON file
carrying the default value of `status`) is not under src/; the spec states
that the invoice record is inserted at `Pending`. -/
def defaultInvoiceStatus : String := "Pending"

/-- The validation-and-computation loop over the transaction's items
(lines 692–745): every item must carry a truthy service-type id that is
`in` the retailer's permitted list, then the line amounts are computed and
the detail dict is built. -/
def buildDetails (validIds : List JValue) (invoiceName : String) :
    List PosItem → Except CreateErr (List JValue)
  | [] => .ok []
  | item :: rest =>
      if !(truthyO item.custom_service_type_id) then
        .error (.missingServiceType item.item_name)
      else if !(validIds.any (fun v => beqJ v (jOpt item.custom_service_type_id))) then
        .error (.invalidServiceType item.item_name)
      else
        let vat_percentage := item.custom_vat_rate.getD 0
        let vat_inclusive := item.custom_vat_exclusive == 0
        let qty := item.qty
        let rate := item.rate
        let discount_percentage := item.discount_percentage.getD 0
        let discount_amount := item.discount_amount.getD 0
        let sd_percentage := item.sd_percentage.getD 0
        let la := computeLine qty rate discount_amount vat_percentage vat_inclusive sd_percentage
        let detail : JValue := .obj
          [("invoice_number", .str invoiceName),
           ("product_name", .str item.item_name),
           ("quantity", .num qty),
           ("unit_price", .num rate),
           ("sd_percentage", .num sd_percentage),
           ("sd_amount", .num la.sd_amount),
           ("total_amount", .num la.stored_total_amount),
           ("service_type_id", jOpt item.custom_service_type_id),
           ("discount_percentage", .num discount_percentage),
           ("discount_amount", .num discount_amount),
           ("total_amount_before_tax", .num la.total_amount_before_tax),
           ("vat_inclusive", .bool vat_inclusive),
           ("vat_percentage", .num vat_percentage),
           ("vat_amount", .num la.vat_amount)]
        match buildDetails validIds invoiceName rest with
        | .error e => .error e
        | .ok ms => .ok (detail :: ms)

/-- Result of `create_vat_invoice`: the world and trace afterwards, and
either a propagated error, or `none` on the silent early return for a
disabled retailer branch, or the created (and possibly already synced)
invoice document. -/
structure COut where
  w : World
  tr : Trace
  res : Except CreateErr (Option VatDoc)
  ex : Bool

/-- Embedding of `VATSmartChallan.create_vat_invoice`: resolve the POS
profile, branch, retailer and customer; return silently when the branch
is disabled; validate every line item and compute its amounts; assemble
the canonical `requested_payloads`; insert the invoice at the default
status; and, when the schedule is `After Submit`, synchronously invoke
`sync_vat_invoice`.  The retailer's permitted service-type ids model
`[d.type_id for d in retailer_doc.get("service_types")]`. -/
def createF (n : Nat) (pos : PosInvoice) (w : World) (tr : Trace) : COut :=
  match w.posProfiles.find? (fun p => p.name == pos.pos_profile) with
  | none => ⟨w, tr, .error .docNotFound, false⟩
  | some prof =>
    match w.branches.find? (fun b => b.name == prof.custom_retailer_branch) with
    | none => ⟨w, tr, .error .docNotFound, false⟩
    | some br =>
      if br.disabled then ⟨w, tr, .ok none, false⟩
      else
        match w.retailers.find? (fun r => r.name == prof.custom_retailer) with
        | none => ⟨w, tr, .error .docNotFound, false⟩
        | some ret =>
          match w.customers.find? (fun c => c.name == pos.customer) with
          | none => ⟨w, tr, .error .docNotFound, false⟩
          | some cust =>
            match buildDetails ret.service_types pos.name pos.items with
            | .error e => ⟨w, tr, .error e, false⟩
            | .ok details =>
              let buyer_info : JValue := .obj
                [("dial_code", .str "+88"),
                 ("phone", .str cust.mobile_no),
                 ("name", .str cust.customer_name),
                 ("email", .str cust.email_id)]
              let requested_payloads : JValue := .obj
                [("vat_invoice", .obj
                  [("invoice_number", .str pos.name),
                   ("retailer_id", jOpt prof.custom_retailer_id),
                   ("invoice_date", .num (pos.posting_ts : ℚ)),
                   ("retailer_transaction_ref", .str pos.name),
                   ("customer_id", .str pos.customer),
                   ("bank_transaction_id", .str ""),
                   ("branch", .str prof.custom_retailer_branch),
                   ("buyer_info", buyer_info),
                   ("txn_amount", .num pos.total),
                   ("payment_method", .str (pos.payments.headD "")),
                   ("total_sd_percentage", .num 0),
                   ("terminal_number", .str ""),
                   ("total_sd_amount", .num 0),
                   ("retailer_branch_id", jOpt prof.custom_retailer_branch_id),
                   ("total_amount", .num pos.grand_total),
                   ("total_discount_amount", .num pos.discount_amount),
                   ("vat_invoice_detail", .arr details)])]
              let newDoc : VatDoc :=
                { name := pos.name
                  invoice_number := pos.name
                  status := defaultInvoiceStatus
                  vat_invoice_id := none
                  s_challan_number := none
                  response := none
                  get_response := none
                  is_return := false
                  return_invoice_no := none
                  return_payload := none
                  return_response := none
                  requested_payloads := requested_payloads }
              let w1 := { w with vatInvoices := w.vatInvoices ++ [newDoc] }
              if w.sync_schedule == "After Submit" then
                let o := engineF n (.sync newDoc) w1 tr
                ⟨o.w, o.tr, .ok (some o.doc), o.ex⟩
              else ⟨w1, tr, .ok (some newDoc), false⟩

/-! ## Concrete fixtures used by the example runs below -/

/-- A transport answering 401 to the first request and 200 with a JSON
body to every later one. -/
def t401then200 : Transport := fun k _ =>
  if k == 0 then .resp 401 .other
  else .resp 200 (.json (.obj [("ok", .str "1")]))

/-- A transport answering 401 to every request. -/
def t401twice : Transport := fun _ _ => .resp 401 .other

/-- A transport raising on every request. -/
def tDown : Transport := fun _ _ => .exn

/-- A cached token state with a far-future expiry. -/
def tokSt : TokenState :=
  ⟨some (.str "tok-1"), some (.str "2099-01-02 03:04:05"), some (.str "77")⟩

/-- An empty reference-data store. -/
def refStore0 : RefStore := ⟨[], [], [], [], []⟩

/-- A parsed zone response carrying one zone twice (same remote id). -/
def zonePayload : Except Unit JValue :=
  .ok (.obj [("data", .obj [("zone", .arr
    [.obj [("id", .str "7"), ("name", .str "Dhaka North")],
     .obj [("id", .str "7"), ("name", .str "Dhaka North")]])])])

/-- An empty world whose transport raises on every request. -/
def w0 : World := ⟨tDown, 0, [], [], [], [], [], [], "Daily"⟩

/-- A blank POS item. -/
def item0 : PosItem := ⟨"", "", 0, 0, 0, "", none, "", none, 0, none, none, none⟩

/-- A blank VAT invoice document. -/
def vd0 : VatDoc := ⟨"", "", "", none, none, none, none, false, none, none, none, .null⟩

/-- A blank POS invoice. -/
def pos0 : PosInvoice := ⟨"", "", "", [], [], 0, 0, 0, "", "", 0⟩

/-- A VAT invoice sitting in `Failed` (a retry entry point). -/
def failedDoc : VatDoc :=
  { vd0 with
    name := "VI-1"
    invoice_number := "INV-1"
    status := "Failed" }

/-- World holding `failedDoc`, with the transport down. -/
def w5 : World := { w0 with vatInvoices := [failedDoc] }

/-- The return transaction of the partial-return example: 4 units of
Widget returned (negative quantity on the return POS invoice). -/
def retPos4 : PosInvoice :=
  { pos0 with
    name := "RET-1"
    return_against := "INV-1"
    items := [{ item0 with
      item_code := "Widget"
      item_name := "Widget"
      qty := -4
      rate := 10
      amount := -40
      uom := "Nos" }] }

/-- The original transaction of the partial-return example: 10 units. -/
def origPos10 : PosInvoice :=
  { pos0 with
    name := "ORIG-1"
    items := [{ item0 with
      item_code := "Widget"
      item_name := "Widget"
      qty := 10
      rate := 10
      amount := 100
      uom := "Nos" }] }

/-- The stored return payload built for the 4-of-10 return: one detail
line with quantity 4. -/
def retPayload4 : JValue :=
  .obj [("return_request_details", .arr
    [.obj [("product_name", .str "Widget"), ("quantity", .num 4)]])]

/-- The original VAT invoice of the partial-return example, its return
payload already built and its return transaction linked. -/
def retDoc4 : VatDoc :=
  { vd0 with
    name := "VI-1"
    invoice_number := "INV-1"
    status := "Pending"
    is_return := true
    return_invoice_no := some "RET-1"
    return_payload := some retPayload4 }

/-- A transport whose POSTs succeed with `status_code = "200"`. -/
def tPost200 : Transport := fun _ m =>
  if m == "POST" then .resp 200 (.json (.obj [("status_code", .str "200")]))
  else .exn

/-- World of the partial-return example. -/
def w4 : World :=
  { w0 with
    transport := tPost200
    vatInvoices := [retDoc4]
    posInvoices := [origPos10, retPos4] }

/-- The `status_code = "200"` body answered to every POST by the
non-terminating-return example's transport (GETs raise). -/
def okBody : JValue := .obj [("status_code", .str "200")]

/-- A synced return-flagged invoice with no stored detail response, no
return payload and no return response: the state from which the return
flow recurses. -/
def loopDoc : VatDoc :=
  { vd0 with
    name := "VI-1"
    invoice_number := "INV-1"
    status := "Synced"
    response := some okBody
    is_return := true
    return_invoice_no := some "RET-1" }

/-- The linked return transaction of the non-terminating example. -/
def loopPos : PosInvoice := { pos0 with name := "RET-1", return_against := "INV-1" }

/-- World family of the non-terminating example, indexed by the transport
cursor. -/
def wLoop (idx : Nat) : World :=
  { w0 with
    transport := tPost200
    reqIndex := idx
    vatInvoices := [loopDoc]
    posInvoices := [loopPos] }

/-- The non-terminating example's invoice demoted to `Pending` by the
return-event handling of `return_vat_invoice` (the state in which
`get_vat_invoice_details` re-invokes `sync_vat_invoice`). -/
def loopPendingDoc : VatDoc :=
  { loopDoc with status := "Pending" }

/-- World family of the non-terminating example while its invoice sits at
`Pending`, indexed by the transport cursor. -/
def wPend (idx : Nat) : World :=
  { w0 with
    transport := tPost200
    reqIndex := idx
    vatInvoices := [loopPendingDoc]
    posInvoices := [loopPos] }

/-- A POS profile / disabled branch / retailer / customer environment. -/
def profA : PosProfile := ⟨"P-1", "BR-1", "RET-A", some (.str "9"), some (.str "8")⟩

/-- Retailer permitting only service type id 5. -/
def retailerA : Retailer := ⟨"RET-A", [.str "5"]⟩

/-- A customer record. -/
def custA : Customer := ⟨"CUST-1", "017", "Alice Rahman", "a@example.com"⟩

/-- A POS transaction with one line item whose service-type id 6 is not in
the retailer's permitted set. -/
def badItemPos : PosInvoice :=
  { pos0 with
    name := "POS-9"
    customer := "CUST-1"
    pos_profile := "P-1"
    items := [{ item0 with
      item_code := "Gadget"
      item_name := "Gadget"
      qty := 1
      rate := 10
      amount := 10
      custom_service_type_id := some (.str "6") }] }

/-- World whose retailer branch is disabled. -/
def wDisabled : World :=
  { w0 with
    posProfiles := [profA]
    branches := [⟨"BR-1", true⟩]
    retailers := [retailerA]
    customers := [custA] }

/-- The same world with the branch enabled. -/
def wEnabled : World :=
  { w0 with
    posProfiles := [profA]
    branches := [⟨"BR-1", false⟩]
    retailers := [retailerA]
    customers := [custA] }

/-- A JSON document together with its hand-authored XML counterpart is
exercised on this value. -/
def jDoc : JValue :=
  .obj [("status_code", .str "200"),
        ("data", .obj [("zone", .arr
          [.obj [("id", .str "1"), ("name", .str "North")],
           .obj [("id", .str "2"), ("name", .str "South")]])])]

/-- The hand-authored XML counterpart of `jDoc`. -/
def xDoc : RawBody := .xml "ObjectNode"
  [.elem "status_code" [.text "200"],
   .elem "data"
     [.elem "zone" [.elem "id" [.text "1"], .elem "name" [.text "North"]],
      .elem "zone" [.elem "id" [.text "2"], .elem "name" [.text "South"]]]]

/-- The `(tag, value)` pairs a field contributes to the child sequence of
its parent element: a sequence value becomes one pair per item under the
field's tag, any other value a single pair. -/
def blockOf : String × JValue → List (String × JValue)
  | (k, .arr vs) => vs.map (fun v => (k, v))
  | (k, v) => [(k, v)]

/-- Shape constraint on an encodable field value, as the encoder enforces
it: a sequence has at least two items, none itself a sequence. -/
def BlockOK : JValue → Prop
  | .arr vs => 2 ≤ vs.length ∧ ∀ u ∈ vs, isArr u = false
  | _ => True

/-- Concatenated blocks of a field list. -/
def flatBlocks : List (String × JValue) → List (String × JValue)
  | [] => []
  | kv :: rest => blockOf kv ++ flatBlocks rest

/-! ## Vocabulary used by the claim statements -/

/-- Number of stored records carrying a given remote id. -/
def countBy {α : Type} (keyOf : α → JValue) (k : JValue) (l : List α) : Nat :=
  (l.filter (fun r => beqJ (keyOf r) k)).length

/-- The status state machine as the specification words it:
`Pending → Syncing → Synced | Failed`; `Synced → Pending` (return event)
`→ Return | Partly Return | Failed`. -/
def specEdges : List (String × String) :=
  [("Pending", "Syncing"), ("Syncing", "Synced"), ("Syncing", "Failed"),
   ("Synced", "Pending"), ("Pending", "Return"), ("Pending", "Partly Return"),
   ("Pending", "Failed")]

/-- The status transitions the code actually produces: any status can
enter `Syncing` (a sync attempt, including a retry from `Failed`),
`Return`/`Partly Return` (a return sync) or `Failed` (any failure);
`Synced` is reached only from `Syncing`; `Pending` only from `Synced`
(the return-event demotion). -/
def edgeOK (p : String × String) : Prop :=
  p.2 = "Syncing" ∨ p.2 = "Return" ∨ p.2 = "Partly Return" ∨ p.2 = "Failed" ∨
  (p.1 = "Syncing" ∧ p.2 = "Synced") ∨ (p.1 = "Synced" ∧ p.2 = "Pending")

/-- One trace is an extension of another by transitions from the actual
edge set. -/
def TraceExtends (tr tr2 : Trace) : Prop :=
  ∃ d, tr2 = tr ++ d ∧ ∀ p ∈ d, edgeOK p

/-- Termination of a `sync_vat_invoice` call, in fuel semantics: some
finite recursion depth completes the run without exhaustion. -/
def syncTerminatesAt (doc : VatDoc) (w : World) : Prop :=
  ∃ n, (engineF n (.sync doc) w []).ex = false

/-- The first line item, in document order, that fails the service-type
validation of `create_vat_invoice`, together with the error it raises. -/
def firstOffense (validIds : List JValue) : List PosItem → Option CreateErr
  | [] => none
  | item :: rest =>
      if !(truthyO item.custom_service_type_id) then
        some (.missingServiceType item.item_name)
      else if !(validIds.any fun v => beqJ v (jOpt item.custom_service_type_id)) then
        some (.invalidServiceType item.item_name)
      else firstOffense validIds rest

/-! ## Helper lemmas -/

mutual
theorem beqJ_iff : ∀ a b : JValue, beqJ a b = true ↔ a = b
  | .null, b => by cases b <;> simp [beqJ]
  | .bool x, b => by cases b <;> simp [beqJ]
  | .num q, b => by cases b <;> simp [beqJ]
  | .str s, b => by cases b <;> simp [beqJ]
  | .arr xs, b => by
      cases b <;> simp [beqJ]
      exact beqL_iff xs _
  | .obj fs, b => by
      cases b <;> simp [beqJ]
      exact beqFs_iff fs _
theorem beqL_iff : ∀ xs ys : List JValue, beqL xs ys = true ↔ xs = ys
  | [], ys => by cases ys <;> simp [beqL]
  | x :: xs, ys => by
      cases ys with
      | nil => simp [beqL]
      | cons y ys =>
          simp only [beqL, Bool.and_eq_true, List.cons.injEq]
          rw [beqJ_iff, beqL_iff]
theorem beqFs_iff : ∀ fs gs : List (String × JValue), beqFs fs gs = true ↔ fs = gs
  | [], gs => by cases gs <;> simp [beqFs]
  | (k, v) :: fs, gs => by
      cases gs with
      | nil => simp [beqFs]
      | cons g gs =>
          obtain ⟨l, w⟩ := g
          simp only [beqFs, Bool.and_eq_true, List.cons.injEq, Prod.mk.injEq,
            beq_iff_eq]
          rw [beqJ_iff, beqFs_iff]
end

/-! ## C1 — invoice line amount conventions -/

/-- C1.  `create_vat_invoice` computes every line by exactly the two
stated conventions — inclusive: `total = qty*rate - discount`,
`pre_tax = total / (1 + vat%/100)`, `vat = total - pre_tax`; exclusive:
`pre_tax = qty*rate - discount`, `vat = pre_tax * vat%/100`,
`total = pre_tax + vat` — with the SD surcharge `total * sd%/100` added on
top of `total` (the stored line total is `total + sd`) and never entering
the VAT amounts; and the qty=2, rate=100, discount=0, vat%=15 example
yields pre_tax ≈ 173.91, vat ≈ 26.09, total = 200 when inclusive and
pre_tax = 200, vat = 30, total = 230 when exclusive. -/
theorem c1_invoice_line_amounts :
    (∀ qty rate discount vat sd : ℚ,
      (computeLine qty rate discount vat true sd).total_amount = qty * rate - discount ∧
      (computeLine qty rate discount vat true sd).total_amount_before_tax =
        (qty * rate - discount) / (1 + vat / 100) ∧
      (computeLine qty rate discount vat true sd).vat_amount =
        (qty * rate - discount) - (qty * rate - discount) / (1 + vat / 100) ∧
      (computeLine qty rate discount vat false sd).total_amount_before_tax =
        qty * rate - discount ∧
      (computeLine qty rate discount vat false sd).vat_amount =
        (qty * rate - discount) * vat / 100 ∧
      (computeLine qty rate discount vat false sd).total_amount =
        (qty * rate - discount) + (qty * rate - discount) * vat / 100 ∧
      (∀ incl : Bool,
        (computeLine qty rate discount vat incl sd).sd_amount =
          (computeLine qty rate discount vat incl sd).total_amount * sd / 100 ∧
        (computeLine qty rate discount vat incl sd).stored_total_amount =
          (computeLine qty rate discount vat incl sd).total_amount +
            (computeLine qty rate discount vat incl sd).sd_amount ∧
        (computeLine qty rate discount vat incl sd).vat_amount =
          (computeLine qty rate discount vat incl 0).vat_amount)) ∧
    |(computeLine 2 100 0 15 true 0).total_amount_before_tax - 173.91| < 1 / 100 ∧
    |(computeLine 2 100 0 15 true 0).vat_amount - 26.09| < 1 / 100 ∧
    (computeLine 2 100 0 15 true 0).total_amount = 200 ∧
    (computeLine 2 100 0 15 false 0).total_amount_before_tax = 200 ∧
    (computeLine 2 100 0 15 false 0).vat_amount = 30 ∧
    (computeLine 2 100 0 15 false 0).total_amount = 230 := by
  refine ⟨fun qty rate discount vat sd => ⟨rfl, rfl, rfl, rfl, rfl, rfl, fun incl => ?_⟩,
    ?_, ?_, ?_, ?_, ?_, ?_⟩
  · cases incl <;> exact ⟨rfl, rfl, rfl⟩
  all_goals norm_num [computeLine, abs_lt]

/-! ## C2 — single retry on 401 -/

/-- C2.  `get_response_data` issues at most two underlying requests: a
first 401 forces exactly one token refresh and exactly one reissue of the
same request; a transport answering 401 then 200 yields a successfully
normalised result after exactly two requests, and 401 then 401 a raised
HTTP error after exactly two requests with no further retry. -/
theorem c2_unauthorized_retry :
    (∀ (t : Transport) (k : Nat) (rt : String),
      (getResponseData t k rt).requests ≤ 2 ∧ (getResponseData t k rt).refreshes ≤ 1) ∧
    (∀ (t : Transport) (k : Nat) (rt : String) (b : RawBody),
      (rt = "GET" ∨ rt = "POST") → t k rt = .resp 401 b →
      (getResponseData t k rt).requests = 2 ∧ (getResponseData t k rt).refreshes = 1 ∧
      (∀ b2, t (k + 1) rt = .resp 401 b2 → (getResponseData t k rt).result = .error ())) ∧
    (getResponseData t401then200 0 "GET").result = .ok (.obj [("ok", .str "1")]) ∧
    (getResponseData t401then200 0 "GET").requests = 2 ∧
    (getResponseData t401twice 0 "GET").result = .error () ∧
    (getResponseData t401twice 0 "GET").requests = 2 := by
  refine ⟨fun t k rt => ?_, fun t k rt b hrt h401 => ?_, ?_, ?_, ?_, ?_⟩
  · unfold getResponseData
    split
    · rcases t k rt with _ | ⟨st, body⟩ <;> simp only
      · omega
      · split
        · rcases t (k + 1) rt with _ | ⟨st2, body2⟩ <;> simp only
          · omega
          · split <;> simp
        · split <;> simp
    · simp
  · have hcond : (rt == "GET" || rt == "POST") = true := by
      rcases hrt with h | h <;> simp [h]
    have hmain : getResponseData t k rt =
        (match t (k + 1) rt with
         | .exn => ⟨.error (), k + 2, 2, 1⟩
         | .resp st2 body2 =>
            if raiseForStatus st2 then ⟨.error (), k + 2, 2, 1⟩
            else ⟨normalizeResponse body2, k + 2, 2, 1⟩) := by
      unfold getResponseData
      rw [hcond]
      simp [h401]
    refine ⟨?_, ?_, fun b2 h2 => ?_⟩
    · rw [hmain]
      rcases t (k + 1) rt with _ | ⟨st2, body2⟩
      · rfl
      · by_cases hr : raiseForStatus st2 <;> simp [hr]
    · rw [hmain]
      rcases t (k + 1) rt with _ | ⟨st2, body2⟩
      · rfl
      · by_cases hr : raiseForStatus st2 <;> simp [hr]
    · rw [hmain, h2]
      simp [raiseForStatus]
  all_goals simp [getResponseData, t401then200, t401twice, raiseForStatus,
    normalizeResponse, detectResponseFormat]

/-- Witness for C2: the second conjunct applied to the concrete
401-then-200 transport. -/
theorem c2_unauthorized_retry_witness :
    (getResponseData t401then200 0 "GET").requests = 2 ∧
    (getResponseData t401then200 0 "GET").refreshes = 1 :=
  ⟨(c2_unauthorized_retry.2.1 t401then200 0 "GET" .other (Or.inl rfl) rfl).1,
   (c2_unauthorized_retry.2.1 t401then200 0 "GET" .other (Or.inl rfl) rfl).2.1⟩

/-! ## C3 — token cache decision -/

/-- C3.  `get_access_token(force_refresh=false)` returns the cached triple
with no network call exactly when a (truthy) token and expiry exist and
the stored expiry parses in `%Y-%m-%d %H:%M:%S` to a time strictly after
`now`; in every other case — expired, equal to now, or unparseable — it
performs the network refresh instead of raising a parse error, and when it
does return from cache it returns the stored triple unchanged. -/
theorem c3_token_cache_decision :
    ∀ (st : TokenState) (now : Nat) (net : Except Unit TokenState),
      ((getAccessToken st false now net).networkCalled = false ↔
        (truthyO st.access_token = true ∧ truthyO st.expiry_date = true ∧
          ∃ k, expiryKey st = some k ∧ now < k)) ∧
      ((getAccessToken st false now net).networkCalled = false →
        getAccessToken st false now net = ⟨st, .ok st, false⟩) := by
  intro st now net
  unfold getAccessToken
  by_cases h1 : truthyO st.access_token = true <;>
    by_cases h2 : truthyO st.expiry_date = true
  · simp only [h1, h2, Bool.not_false, Bool.and_true, Bool.true_and, if_true]
    cases hk : expiryKey st with
    | none => cases net <;> simp [hk]
    | some k =>
        by_cases hlt : now < k
        · simp [hk, hlt]
        · cases net <;> simp [hk, hlt]
  all_goals
    simp only [Bool.not_eq_true] at h1 h2 <;>
      cases net <;> simp [h1, h2]

/-- Witness for C3: a cached token with a far-future expiry is returned
unchanged without a network call, by the theorem itself. -/
theorem c3_token_cache_decision_witness :
    getAccessToken tokSt false 0 (.error ()) = ⟨tokSt, .ok tokSt, false⟩ :=
  (c3_token_cache_decision tokSt 0 (.error ())).2 rfl

/-! ## C9 — idempotent reference-data upsert -/

theorem existsKey_iff {α : Type} (keyOf : α → JValue) (tbl : List α) (i : JValue) :
    existsKey keyOf tbl i = true ↔ ∃ r ∈ tbl, keyOf r = i := by
  simp only [existsKey, List.any_eq_true]
  constructor
  · rintro ⟨r, hr, hb⟩
    exact ⟨r, hr, (beqJ_iff _ _).mp hb⟩
  · rintro ⟨r, hr, hb⟩
    exact ⟨r, hr, (beqJ_iff _ _).mpr hb⟩

theorem upsertLoop_append {α : Type} (keyOf : α → JValue) (req : JValue → Bool)
    (key : JValue → JValue) (build : JValue → Nat → α) :
    ∀ (es : List JValue) (tbl : List α),
      ∃ d, (upsertLoop keyOf req key build es tbl).1 = tbl ++ d := by
  intro es
  induction es with
  | nil => exact fun tbl => ⟨[], by simp [upsertLoop]⟩
  | cons e rest ih =>
      intro tbl
      match e with
      | .null | .bool _ | .num _ | .str _ | .arr _ => exact ⟨[], by simp [upsertLoop]⟩
      | .obj fs =>
          simp only [upsertLoop]
          by_cases hreq : req (.obj fs) = true
          · by_cases hex : existsKey keyOf tbl (key (.obj fs)) = true
            · simpa [hreq, hex] using ih tbl
            · obtain ⟨d, hd⟩ := ih (tbl ++ [build (.obj fs) tbl.length])
              refine ⟨[build (.obj fs) tbl.length] ++ d, ?_⟩
              simp [hreq, hex, hd]
          · simpa [hreq] using ih tbl

theorem existsKey_append_left {α : Type} (keyOf : α → JValue) (tbl d : List α)
    (i : JValue) (h : existsKey keyOf tbl i = true) :
    existsKey keyOf (tbl ++ d) i = true := by
  rcases (existsKey_iff keyOf tbl i).mp h with ⟨r, hr, hk⟩
  exact (existsKey_iff keyOf (tbl ++ d) i).mpr ⟨r, List.mem_append_left _ hr, hk⟩

theorem upsertLoop_idem {α : Type} (keyOf : α → JValue) (req : JValue → Bool)
    (key : JValue → JValue) (build : JValue → Nat → α)
    (hb : ∀ e n, keyOf (build e n) = key e) :
    ∀ (es : List JValue) (tbl : List α),
      upsertLoop keyOf req key build es (upsertLoop keyOf req key build es tbl).1 =
        upsertLoop keyOf req key build es tbl := by
  intro es
  induction es with
  | nil => intro tbl; simp [upsertLoop]
  | cons e rest ih =>
      intro tbl
      match e with
      | .null | .bool _ | .num _ | .str _ | .arr _ => simp [upsertLoop]
      | .obj fs =>
          by_cases hreq : req (.obj fs) = true
          · by_cases hex : existsKey keyOf tbl (key (.obj fs)) = true
            · have hex2 : existsKey keyOf
                  (upsertLoop keyOf req key build rest tbl).1 (key (.obj fs)) = true := by
                obtain ⟨d, hd⟩ := upsertLoop_append keyOf req key build rest tbl
                rw [hd]
                exact existsKey_append_left _ _ _ _ hex
              simp [upsertLoop, hreq, hex, hex2, ih]
            · have hmem : build (.obj fs) tbl.length ∈
                  (upsertLoop keyOf req key build rest
                    (tbl ++ [build (.obj fs) tbl.length])).1 := by
                obtain ⟨d, hd⟩ :=
                  upsertLoop_append keyOf req key build rest
                    (tbl ++ [build (.obj fs) tbl.length])
                rw [hd]
                exact List.mem_append_left _ (by simp)
              have hex2 : existsKey keyOf
                  (upsertLoop keyOf req key build rest
                    (tbl ++ [build (.obj fs) tbl.length])).1 (key (.obj fs)) = true :=
                (existsKey_iff _ _ _).mpr ⟨_, hmem, hb _ _⟩
              simp [upsertLoop, hreq, hex, hex2, ih]
          · simp [upsertLoop, hreq, ih]

theorem countBy_append {α : Type} (keyOf : α → JValue) (k : JValue) (l1 l2 : List α) :
    countBy keyOf k (l1 ++ l2) = countBy keyOf k l1 + countBy keyOf k l2 := by
  simp [countBy, List.filter_append]

theorem countBy_pos_exists {α : Type} (keyOf : α → JValue) (k : JValue) (l : List α)
    (h : 0 < countBy keyOf k l) : existsKey keyOf l k = true := by
  simp only [countBy, List.length_pos, Ne, List.filter_eq_nil] at h
  push_neg at h
  obtain ⟨r, hr, hb⟩ := h
  exact (existsKey_iff _ _ _).mpr ⟨r, hr, (beqJ_iff _ _).mp (by simpa using hb)⟩

theorem upsertLoop_count {α : Type} (keyOf : α → JValue) (req : JValue → Bool)
    (key : JValue → JValue) (build : JValue → Nat → α)
    (hb : ∀ e n, keyOf (build e n) = key e) :
    ∀ (es : List JValue) (tbl : List α) (k : JValue),
      countBy keyOf k tbl ≤ 1 →
      countBy keyOf k (upsertLoop keyOf req key build es tbl).1 ≤ 1 := by
  intro es
  induction es with
  | nil => intro tbl k h; simpa [upsertLoop] using h
  | cons e rest ih =>
      intro tbl k h
      match e with
      | .null | .bool _ | .num _ | .str _ | .arr _ => simpa [upsertLoop] using h
      | .obj fs =>
          by_cases hreq : req (.obj fs) = true
          · by_cases hex : existsKey keyOf tbl (key (.obj fs)) = true
            · simp only [upsertLoop, hreq, hex, if_true]
              exact ih tbl k h
            · simp only [upsertLoop, hreq, hex, if_true, Bool.false_eq_true, if_false]
              refine ih _ k ?_
              rw [countBy_append]
              by_cases hkk : key (.obj fs) = k
              · have h0 : countBy keyOf k tbl = 0 := by
                  by_contra hc
                  exact hex (hkk ▸ countBy_pos_exists keyOf k tbl (Nat.pos_of_ne_zero hc))
                have h1 : countBy keyOf k [build (.obj fs) tbl.length] ≤ 1 := by
                  simp only [countBy, List.filter]
                  split <;> simp
                omega
              · have h1 : countBy keyOf k [build (.obj fs) tbl.length] = 0 := by
                  have hf : beqJ (keyOf (build (.obj fs) tbl.length)) k = false := by
                    rw [hb]
                    by_contra hc
                    simp only [Bool.not_eq_false] at hc
                    exact hkk ((beqJ_iff _ _).mp hc)
                  simp [countBy, List.filter, hf]
                omega
          · simp only [upsertLoop, hreq, Bool.false_eq_true, if_false]
            exact ih tbl k h

theorem zoneLoop_idem : ∀ (es : List JValue) (tbl : List ZoneRec),
    zoneLoop es (zoneLoop es tbl).1 = zoneLoop es tbl :=
  upsertLoop_idem _ _ _ _ (fun _ _ => rfl)

theorem zoneLoop_append : ∀ (es : List JValue) (tbl : List ZoneRec),
    ∃ d, (zoneLoop es tbl).1 = tbl ++ d :=
  upsertLoop_append _ _ _ _

theorem zoneLoop_count : ∀ (es : List JValue) (tbl : List ZoneRec) (k : JValue),
    countBy ZoneRec.zone_id k tbl ≤ 1 →
    countBy ZoneRec.zone_id k (zoneLoop es tbl).1 ≤ 1 :=
  upsertLoop_count _ _ _ _ (fun _ _ => rfl)

theorem rateLoop_idem (zs : List ZoneRec) : ∀ (es : List JValue) (tbl : List RateRec),
    rateLoop zs es (rateLoop zs es tbl).1 = rateLoop zs es tbl :=
  upsertLoop_idem _ _ _ _ (fun _ _ => rfl)

theorem rateLoop_append (zs : List ZoneRec) : ∀ (es : List JValue) (tbl : List RateRec),
    ∃ d, (rateLoop zs es tbl).1 = tbl ++ d :=
  upsertLoop_append _ _ _ _

theorem rateLoop_count (zs : List ZoneRec) :
    ∀ (es : List JValue) (tbl : List RateRec) (k : JValue),
    countBy RateRec.vat_commission_rate_id k tbl ≤ 1 →
    countBy RateRec.vat_commission_rate_id k (rateLoop zs es tbl).1 ≤ 1 :=
  upsertLoop_count _ _ _ _ (fun _ _ => rfl)

theorem divisionLoop_idem (zs : List ZoneRec) (rs : List RateRec) :
    ∀ (es : List JValue) (tbl : List DivRec),
    divisionLoop zs rs es (divisionLoop zs rs es tbl).1 = divisionLoop zs rs es tbl :=
  upsertLoop_idem _ _ _ _ (fun _ _ => rfl)

theorem divisionLoop_append (zs : List ZoneRec) (rs : List RateRec) :
    ∀ (es : List JValue) (tbl : List DivRec),
    ∃ d, (divisionLoop zs rs es tbl).1 = tbl ++ d :=
  upsertLoop_append _ _ _ _

theorem divisionLoop_count (zs : List ZoneRec) (rs : List RateRec) :
    ∀ (es : List JValue) (tbl : List DivRec) (k : JValue),
    countBy DivRec.division_id k tbl ≤ 1 →
    countBy DivRec.division_id k (divisionLoop zs rs es tbl).1 ≤ 1 :=
  upsertLoop_count _ _ _ _ (fun _ _ => rfl)

theorem circleLoop_idem (zs : List ZoneRec) (rs : List RateRec) (ds : List DivRec) :
    ∀ (es : List JValue) (tbl : List CircleRec),
    circleLoop zs rs ds es (circleLoop zs rs ds es tbl).1 = circleLoop zs rs ds es tbl :=
  upsertLoop_idem _ _ _ _ (fun _ _ => rfl)

theorem circleLoop_append (zs : List ZoneRec) (rs : List RateRec) (ds : List DivRec) :
    ∀ (es : List JValue) (tbl : List CircleRec),
    ∃ d, (circleLoop zs rs ds es tbl).1 = tbl ++ d :=
  upsertLoop_append _ _ _ _

theorem circleLoop_count (zs : List ZoneRec) (rs : List RateRec) (ds : List DivRec) :
    ∀ (es : List JValue) (tbl : List CircleRec) (k : JValue),
    countBy CircleRec.circle_id k tbl ≤ 1 →
    countBy CircleRec.circle_id k (circleLoop zs rs ds es tbl).1 ≤ 1 :=
  upsertLoop_count _ _ _ _ (fun _ _ => rfl)

theorem serviceLoop_idem : ∀ (es : List JValue) (tbl : List ServiceRec),
    serviceLoop es (serviceLoop es tbl).1 = serviceLoop es tbl :=
  upsertLoop_idem _ _ _ _ (fun _ _ => rfl)

theorem serviceLoop_append : ∀ (es : List JValue) (tbl : List ServiceRec),
    ∃ d, (serviceLoop es tbl).1 = tbl ++ d :=
  upsertLoop_append _ _ _ _

theorem serviceLoop_count : ∀ (es : List JValue) (tbl : List ServiceRec) (k : JValue),
    countBy ServiceRec.service_id k tbl ≤ 1 →
    countBy ServiceRec.service_id k (serviceLoop es tbl).1 ≤ 1 :=
  upsertLoop_count _ _ _ _ (fun _ _ => rfl)

/-- C9.  Reference-data upsert is idempotent for each of the five
synchronizer operations: rerunning an operation on its own result changes
nothing (an element whose remote id already exists inserts nothing), the
stored table only ever grows by appending (an existing record is never
updated by a later sync), and a store holding at most one record for a
remote id keeps at most one after any sync. -/
theorem c9_reference_upsert :
    ∀ (p : Except Unit JValue) (s : RefStore),
      (getZoneOp p (getZoneOp p s).1 = getZoneOp p s ∧
        (∃ d, (getZoneOp p s).1.zones = s.zones ++ d) ∧
        ∀ k, countBy ZoneRec.zone_id k s.zones ≤ 1 →
          countBy ZoneRec.zone_id k (getZoneOp p s).1.zones ≤ 1) ∧
      (getRateOp p (getRateOp p s).1 = getRateOp p s ∧
        (∃ d, (getRateOp p s).1.rates = s.rates ++ d) ∧
        ∀ k, countBy RateRec.vat_commission_rate_id k s.rates ≤ 1 →
          countBy RateRec.vat_commission_rate_id k (getRateOp p s).1.rates ≤ 1) ∧
      (getDivisionOp p (getDivisionOp p s).1 = getDivisionOp p s ∧
        (∃ d, (getDivisionOp p s).1.divisions = s.divisions ++ d) ∧
        ∀ k, countBy DivRec.division_id k s.divisions ≤ 1 →
          countBy DivRec.division_id k (getDivisionOp p s).1.divisions ≤ 1) ∧
      (getCircleOp p (getCircleOp p s).1 = getCircleOp p s ∧
        (∃ d, (getCircleOp p s).1.circles = s.circles ++ d) ∧
        ∀ k, countBy CircleRec.circle_id k s.circles ≤ 1 →
          countBy CircleRec.circle_id k (getCircleOp p s).1.circles ≤ 1) ∧
      (getServiceTypesOp p (getServiceTypesOp p s).1 = getServiceTypesOp p s ∧
        (∃ d, (getServiceTypesOp p s).1.services = s.services ++ d) ∧
        ∀ k, countBy ServiceRec.service_id k s.services ≤ 1 →
          countBy ServiceRec.service_id k (getServiceTypesOp p s).1.services ≤ 1) := by
  intro p s
  refine ⟨?_, ?_, ?_, ?_, ?_⟩
  · cases hE : extractFallback p "zone" with
    | error e => exact ⟨by simp [getZoneOp, hE], ⟨[], by simp [getZoneOp, hE]⟩,
        fun k h => by simpa [getZoneOp, hE] using h⟩
    | ok es =>
        refine ⟨?_, ?_, fun k h => ?_⟩
        · simp [getZoneOp, hE, zoneLoop_idem es s.zones]
        · simpa [getZoneOp, hE] using zoneLoop_append es s.zones
        · simpa [getZoneOp, hE] using zoneLoop_count es s.zones k h
  · cases hE : extractFallback p "vat_commissionrate" with
    | error e => exact ⟨by simp [getRateOp, hE], ⟨[], by simp [getRateOp, hE]⟩,
        fun k h => by simpa [getRateOp, hE] using h⟩
    | ok es =>
        refine ⟨?_, ?_, fun k h => ?_⟩
        · simp [getRateOp, hE, rateLoop_idem s.zones es s.rates]
        · simpa [getRateOp, hE] using rateLoop_append s.zones es s.rates
        · simpa [getRateOp, hE] using rateLoop_count s.zones es s.rates k h
  · cases hE : extractFallback p "division" with
    | error e => exact ⟨by simp [getDivisionOp, hE], ⟨[], by simp [getDivisionOp, hE]⟩,
        fun k h => by simpa [getDivisionOp, hE] using h⟩
    | ok es =>
        refine ⟨?_, ?_, fun k h => ?_⟩
        · simp [getDivisionOp, hE, divisionLoop_idem s.zones s.rates es s.divisions]
        · simpa [getDivisionOp, hE] using divisionLoop_append s.zones s.rates es s.divisions
        · simpa [getDivisionOp, hE] using divisionLoop_count s.zones s.rates es s.divisions k h
  · cases hE : extractUnderData p "circle" with
    | error e => exact ⟨by simp [getCircleOp, hE], ⟨[], by simp [getCircleOp, hE]⟩,
        fun k h => by simpa [getCircleOp, hE] using h⟩
    | ok es =>
        refine ⟨?_, ?_, fun k h => ?_⟩
        · simp [getCircleOp, hE, circleLoop_idem s.zones s.rates s.divisions es s.circles]
        · simpa [getCircleOp, hE] using
            circleLoop_append s.zones s.rates s.divisions es s.circles
        · simpa [getCircleOp, hE] using
            circleLoop_count s.zones s.rates s.divisions es s.circles k h
  · cases hE : extractUnderData p "retailer_service_types" with
    | error e => exact ⟨by simp [getServiceTypesOp, hE], ⟨[], by simp [getServiceTypesOp, hE]⟩,
        fun k h => by simpa [getServiceTypesOp, hE] using h⟩
    | ok es =>
        refine ⟨?_, ?_, fun k h => ?_⟩
        · simp [getServiceTypesOp, hE, serviceLoop_idem es s.services]
        · simpa [getServiceTypesOp, hE] using serviceLoop_append es s.services
        · simpa [getServiceTypesOp, hE] using serviceLoop_count es s.services k h

/-- Witness for C9: upserting the duplicated-zone payload onto the empty
store, then once more onto the result, leaves that result unchanged, with
at most one stored record for zone id 7, by the theorem itself. -/
theorem c9_reference_upsert_witness :
    getZoneOp zonePayload (getZoneOp zonePayload refStore0).1 =
      getZoneOp zonePayload refStore0 ∧
    countBy ZoneRec.zone_id (.str "7") (getZoneOp zonePayload refStore0).1.zones ≤ 1 :=
  ⟨(c9_reference_upsert zonePayload refStore0).1.1,
   (c9_reference_upsert zonePayload refStore0).1.2.2 (.str "7")
     (by simp [refStore0, countBy])⟩

/-! ## C6 — format-agnostic normalisation -/

theorem childPairs_append : ∀ xs ys : List Xml,
    childPairs (xs ++ ys) = childPairs xs ++ childPairs ys
  | [], _ => rfl
  | .elem t cc :: xs, ys => by
      simp [childPairs, childPairs_append xs ys]
  | .text s :: xs, ys => by
      simp [childPairs, childPairs_append xs ys]

theorem xmlTexts_aux : ∀ (cs : List Xml) (acc : String), cs.all isElem = true →
    List.foldl (fun a c => match c with | Xml.text s => a ++ s | _ => a) acc cs = acc
  | [], _, _ => rfl
  | .elem t cc :: cs, acc, h => by
      simp only [List.all_cons, isElem, Bool.true_and] at h
      simpa using xmlTexts_aux cs acc h
  | .text s :: cs, acc, h => by
      simp [isElem] at h

theorem xmlTexts_all_elem (cs : List Xml) (h : cs.all isElem = true) :
    xmlTexts cs = "" :=
  xmlTexts_aux cs "" h

theorem all_not_isElem_false (cs : List Xml) (hne : cs ≠ [])
    (h : cs.all isElem = true) : (cs.all fun c => !(isElem c)) = false := by
  cases cs with
  | nil => exact absurd rfl hne
  | cons c cs =>
      simp only [List.all_cons, Bool.and_eq_true] at h
      simp [h.1]

theorem encArrItems_length : ∀ (k : String) (vs : List JValue) (xs : List Xml),
    encArrItems k vs = some xs → xs.length = vs.length
  | _, [], xs => by intro h; unfold encArrItems at h; simp at h; simp [← h]
  | k, v :: vs, xs => by
      intro h
      unfold encArrItems at h
      by_cases ha : isArr v = true
      · simp [ha] at h
      · rw [Bool.not_eq_true] at ha
        rw [if_neg (by simp [ha])] at h
        rcases hc : encChildren v with _ | cs <;> rw [hc] at h
        · simp at h
        · rcases hr : encArrItems k vs with _ | ys <;> rw [hr] at h
          · simp at h
          · simp only [Option.some.injEq] at h
            subst h
            simp [encArrItems_length k vs ys hr]

theorem encArrItems_nonarr : ∀ (k : String) (vs : List JValue) (xs : List Xml),
    encArrItems k vs = some xs → ∀ u ∈ vs, isArr u = false
  | _, [], _ => by intro _ u hu; cases hu
  | k, v :: vs, xs => by
      intro h u hu
      unfold encArrItems at h
      by_cases ha : isArr v = true
      · simp [ha] at h
      · rw [Bool.not_eq_true] at ha
        rw [if_neg (by simp [ha])] at h
        rcases hc : encChildren v with _ | cs <;> rw [hc] at h
        · simp at h
        · rcases hr : encArrItems k vs with _ | ys <;> rw [hr] at h
          · simp at h
          · rcases List.mem_cons.mp hu with rfl | hu
            · exact ha
            · exact encArrItems_nonarr k vs ys hr u hu

theorem encField_blockOK (k : String) (v : JValue) (xs : List Xml)
    (h : encField k v = some xs) : BlockOK v := by
  cases v with
  | arr vs =>
      unfold encField at h
      by_cases hl : vs.length < 2
      · simp [hl] at h
      · refine ⟨by omega, encArrItems_nonarr k vs xs ?_⟩
        rw [if_neg hl] at h
        exact h
  | null => trivial
  | bool b => trivial
  | num q => trivial
  | str s => trivial
  | obj fs => trivial

theorem encField_ne_nil (k : String) (v : JValue) (xs : List Xml)
    (h : encField k v = some xs) : xs ≠ [] := by
  cases v with
  | arr vs =>
      unfold encField at h
      by_cases hl : vs.length < 2
      · simp [hl] at h
      · rw [if_neg hl] at h
        have := encArrItems_length k vs xs h
        intro hx
        rw [hx] at this
        simp at this
        omega
  | null => simp [encField, encChildren] at h
  | bool b => simp [encField, encChildren] at h
  | num q => simp [encField, encChildren] at h
  | str s =>
      unfold encField at h
      rcases hc : encChildren (.str s) with _ | cs <;> rw [hc] at h
      · simp at h
      · simp only [Option.map_some', Option.some.injEq] at h
        simp [← h]
  | obj fs =>
      unfold encField at h
      rcases hc : encChildren (.obj fs) with _ | cs <;> rw [hc] at h
      · simp at h
      · simp only [Option.map_some', Option.some.injEq] at h
        simp [← h]

theorem encFields_blockOK : ∀ (fs : List (String × JValue)) (cs : List Xml),
    encFields fs = some cs → ∀ kv ∈ fs, BlockOK kv.2
  | [], _ => by intro _ kv hkv; cases hkv
  | (k, v) :: fs, cs => by
      intro h kv hkv
      unfold encFields at h
      rcases hf : encField k v with _ | xs <;> rw [hf] at h
      · simp at h
      · rcases hr : encFields fs with _ | ys <;> rw [hr] at h
        · simp at h
        · rcases List.mem_cons.mp hkv with rfl | hkv
          · exact encField_blockOK k v xs hf
          · exact encFields_blockOK fs ys hr kv hkv

theorem hasKey_append (a b : List (String × JValue)) (k : String) :
    hasKey (a ++ b) k = (hasKey a k || hasKey b k) := by
  simp [hasKey, List.any_append]

theorem hasKey_false_forall {acc : List (String × JValue)} {k : String}
    (h : hasKey acc k = false) : ∀ p ∈ acc, (p.1 == k) = false := by
  intro p hp
  by_contra hc
  rw [Bool.not_eq_false] at hc
  have : hasKey acc k = true := by
    simp only [hasKey, List.any_eq_true]
    exact ⟨p, hp, hc⟩
  rw [this] at h
  cases h

theorem find_none (acc : List (String × JValue)) (k : String)
    (h : hasKey acc k = false) : List.find? (fun p => p.1 == k) acc = none := by
  rw [List.find?_eq_none]
  intro p hp
  simp [hasKey_false_forall h p hp]

theorem lookup_none (acc : List (String × JValue)) (k : String)
    (h : hasKey acc k = false) : lookupField acc k = none := by
  simp [lookupField, find_none acc k h]

theorem lookup_append_self (acc : List (String × JValue)) (k : String) (x : JValue)
    (h : hasKey acc k = false) : lookupField (acc ++ [(k, x)]) k = some x := by
  simp [lookupField, List.find?_append, find_none acc k h, List.find?]

theorem map_replace (acc : List (String × JValue)) (k : String) (x y : JValue)
    (h : hasKey acc k = false) :
    ((acc ++ [(k, x)]).map (fun p => if p.1 == k then (p.1, y) else p)) =
      acc ++ [(k, y)] := by
  rw [List.map_append]
  have h1 : acc.map (fun p => if p.1 == k then (p.1, y) else p) = acc := by
    conv_rhs => rw [← List.map_id acc]
    refine List.map_congr_left ?_
    intro p hp
    simp [hasKey_false_forall h p hp]
  rw [h1]
  simp

theorem pushChild_new (acc : List (String × JValue)) (k : String) (v : JValue)
    (h : hasKey acc k = false) : pushChild acc k v = acc ++ [(k, v)] := by
  simp [pushChild, lookup_none acc k h]

theorem pushChild_snoc_arr (acc : List (String × JValue)) (k : String)
    (xs : List JValue) (v : JValue) (h : hasKey acc k = false) :
    pushChild (acc ++ [(k, .arr xs)]) k v = acc ++ [(k, .arr (xs ++ [v]))] := by
  unfold pushChild
  rw [lookup_append_self acc k (.arr xs) h]
  exact map_replace acc k (.arr xs) (.arr (xs ++ [v])) h

theorem pushChild_snoc_nonarr (acc : List (String × JValue)) (k : String)
    (x v : JValue) (h : hasKey acc k = false) (hx : isArr x = false) :
    pushChild (acc ++ [(k, x)]) k v = acc ++ [(k, .arr [x, v])] := by
  unfold pushChild
  rw [lookup_append_self acc k x h]
  cases x with
  | arr xs => simp [isArr] at hx
  | null => exact map_replace acc k _ _ h
  | bool b => exact map_replace acc k _ _ h
  | num q => exact map_replace acc k _ _ h
  | str s => exact map_replace acc k _ _ h
  | obj fs => exact map_replace acc k _ _ h

theorem foldPush_items (k : String) :
    ∀ (items : List JValue) (acc : List (String × JValue)) (xs : List JValue),
    hasKey acc k = false →
    List.foldl (fun a p => pushChild a p.1 p.2) (acc ++ [(k, .arr xs)])
      (items.map (fun v => (k, v))) = acc ++ [(k, .arr (xs ++ items))]
  | [], acc, xs, _ => by simp
  | v :: items, acc, xs, h => by
      simp only [List.map_cons, List.foldl_cons]
      rw [pushChild_snoc_arr acc k xs v h, foldPush_items k items acc (xs ++ [v]) h]
      simp

theorem foldPush_block (k : String) (v : JValue) (acc : List (String × JValue))
    (h : hasKey acc k = false) (hbok : BlockOK v) :
    List.foldl (fun a p => pushChild a p.1 p.2) acc (blockOf (k, v)) =
      acc ++ [(k, v)] := by
  cases v with
  | arr vs =>
      obtain ⟨hlen, hnonarr⟩ := hbok
      match vs, hlen with
      | v1 :: v2 :: rest, _ =>
          simp only [blockOf, List.map_cons, List.foldl_cons]
          rw [pushChild_new acc k v1 h]
          rw [pushChild_snoc_nonarr acc k v1 v2 h (hnonarr v1 (by simp))]
          rw [foldPush_items k rest acc [v1, v2] h]
          rfl
  | null =>
      show List.foldl _ acc [(k, JValue.null)] = _
      simp only [List.foldl_cons, List.foldl_nil]
      exact pushChild_new acc k _ h
  | bool b =>
      show List.foldl _ acc [(k, JValue.bool b)] = _
      simp only [List.foldl_cons, List.foldl_nil]
      exact pushChild_new acc k _ h
  | num q =>
      show List.foldl _ acc [(k, JValue.num q)] = _
      simp only [List.foldl_cons, List.foldl_nil]
      exact pushChild_new acc k _ h
  | str s =>
      show List.foldl _ acc [(k, JValue.str s)] = _
      simp only [List.foldl_cons, List.foldl_nil]
      exact pushChild_new acc k _ h
  | obj fs =>
      show List.foldl _ acc [(k, JValue.obj fs)] = _
      simp only [List.foldl_cons, List.foldl_nil]
      exact pushChild_new acc k _ h

theorem foldPush_flat : ∀ (fs : List (String × JValue)) (acc : List (String × JValue)),
    keysDistinct fs = true → (∀ kv ∈ fs, BlockOK kv.2) →
    (∀ kv ∈ fs, hasKey acc kv.1 = false) →
    List.foldl (fun a p => pushChild a p.1 p.2) acc (flatBlocks fs) = acc ++ fs
  | [], acc, _, _, _ => by simp [flatBlocks]
  | (k, v) :: fs, acc, hd, hbok, hacc => by
      simp only [flatBlocks, List.foldl_append]
      rw [foldPush_block k v acc (hacc (k, v) (by simp)) (hbok (k, v) (by simp))]
      simp only [keysDistinct, Bool.and_eq_true, Bool.not_eq_true'] at hd
      rw [foldPush_flat fs (acc ++ [(k, v)]) hd.2
        (fun kv hkv => hbok kv (List.mem_cons_of_mem _ hkv))
        (fun kv hkv => ?_)]
      · simp
      · rw [hasKey_append]
        have h1 : hasKey acc kv.1 = false := hacc kv (List.mem_cons_of_mem _ hkv)
        have h3 : ¬ kv.1 = k := by simpa using hasKey_false_forall hd.1 kv hkv
        have h2 : hasKey [(k, v)] kv.1 = false := by
          simp only [hasKey, List.any_cons, List.any_nil, Bool.or_false,
            beq_eq_false_iff_ne, ne_eq]
          exact fun hh => h3 hh.symm
        simp [h1, h2]

theorem groupPairs_flat (fs : List (String × JValue)) (hd : keysDistinct fs = true)
    (hbok : ∀ kv ∈ fs, BlockOK kv.2) : groupPairs (flatBlocks fs) = fs := by
  have := foldPush_flat fs [] hd hbok (fun kv _ => by simp [hasKey])
  simpa [groupPairs] using this

theorem strEmptyAppend (s : String) : "" ++ s = s := by
  rcases s with ⟨l⟩
  rfl

theorem blockOf_ne_nil (kv : String × JValue) (h : BlockOK kv.2) :
    blockOf kv ≠ [] := by
  obtain ⟨k, v⟩ := kv
  cases v with
  | arr vs =>
      obtain ⟨hlen, _⟩ := h
      match vs, hlen with
      | v1 :: rest, _ => simp [blockOf]
  | null => simp [blockOf]
  | bool b => simp [blockOf]
  | num q => simp [blockOf]
  | str s => simp [blockOf]
  | obj fs => simp [blockOf]

mutual
theorem encChildren_inv : ∀ (v : JValue) (cs : List Xml), encChildren v = some cs →
    ∀ t, xmlValue (.elem t cs) = v
  | .str s, cs => by
      intro h t
      unfold encChildren at h
      by_cases hs : (s == "") = true
      · rw [if_pos hs] at h; cases h
      · rw [if_neg hs] at h
        simp only [Option.some.injEq] at h
        subst h
        simp only [xmlValue, xmlTexts, List.foldl_cons, List.foldl_nil,
          List.all_cons, List.all_nil, isElem, Bool.not_false, Bool.and_self]
        rw [strEmptyAppend]
        simp [hs]
  | .obj fs, cs => by
      intro h t
      unfold encChildren at h
      by_cases hg : (fs.isEmpty || !keysDistinct fs) = true
      · rw [if_pos hg] at h; cases h
      · rw [if_neg hg] at h
        simp only [Bool.or_eq_true, Bool.not_eq_true', not_or] at hg
        obtain ⟨hne, hkd⟩ := hg
        rw [Bool.not_eq_false] at hkd
        rw [Bool.not_eq_true] at hne
        have hne_fs : fs ≠ [] := by
          intro hnil
          rw [hnil] at hne
          simp at hne
        have hMB := encFields_inv fs cs h
        have hbok := encFields_blockOK fs cs h
        have hcs_ne : cs ≠ [] := by
          intro hnil
          rw [hnil] at hMB
          match fs, hne_fs with
          | kv :: rest, _ =>
              have : blockOf kv ++ flatBlocks rest = [] := by
                rw [show blockOf kv ++ flatBlocks rest = flatBlocks (kv :: rest) from rfl]
                rw [← hMB.1]
                rfl
              exact blockOf_ne_nil kv (hbok kv (by simp)) (List.append_eq_nil.mp this).1
        simp only [xmlValue, all_not_isElem_false cs hcs_ne hMB.2, Bool.false_eq_true,
          if_false, xmlTexts_all_elem cs hMB.2, hMB.1, groupPairs_flat fs hkd hbok]
        simp
  | .null, cs => by intro h; simp [encChildren] at h
  | .bool b, cs => by intro h; simp [encChildren] at h
  | .num q, cs => by intro h; simp [encChildren] at h
  | .arr xs, cs => by intro h; simp [encChildren] at h
theorem encFields_inv : ∀ (fs : List (String × JValue)) (cs : List Xml),
    encFields fs = some cs →
    childPairs cs = flatBlocks fs ∧ cs.all isElem = true
  | [], cs => by
      intro h
      unfold encFields at h
      simp only [Option.some.injEq] at h
      subst h
      exact ⟨rfl, rfl⟩
  | (k, v) :: fs, cs => by
      intro h
      unfold encFields at h
      rcases hf : encField k v with _ | xs <;> rw [hf] at h
      · simp at h
      · rcases hr : encFields fs with _ | ys <;> rw [hr] at h
        · simp at h
        · simp only [Option.some.injEq] at h
          subst h
          have h1 := encField_inv k v xs hf
          have h2 := encFields_inv fs ys hr
          refine ⟨?_, by simp [List.all_append, h1.2, h2.2]⟩
          rw [childPairs_append, h1.1, h2.1]
          rfl
theorem encField_inv : ∀ (k : String) (v : JValue) (xs : List Xml),
    encField k v = some xs →
    childPairs xs = blockOf (k, v) ∧ xs.all isElem = true
  | k, .arr vs, xs => by
      intro h
      unfold encField at h
      by_cases hl : vs.length < 2
      · rw [if_pos hl] at h; cases h
      · rw [if_neg hl] at h
        have h1 := encArrItems_inv k vs xs h
        exact ⟨by rw [h1.1]; rfl, h1.2⟩
  | k, .null, xs => by intro h; simp [encField, encChildren] at h
  | k, .bool b, xs => by intro h; simp [encField, encChildren] at h
  | k, .num q, xs => by intro h; simp [encField, encChildren] at h
  | k, .str s, xs => by
      intro h
      unfold encField at h
      rcases hc : encChildren (.str s) with _ | cs <;> rw [hc] at h
      · simp at h
      · simp only [Option.map_some', Option.some.injEq] at h
        subst h
        refine ⟨?_, by simp [isElem]⟩
        simp [childPairs, encChildren_inv (.str s) cs hc k, blockOf]
  | k, .obj fs, xs => by
      intro h
      unfold encField at h
      rcases hc : encChildren (.obj fs) with _ | cs <;> rw [hc] at h
      · simp at h
      · simp only [Option.map_some', Option.some.injEq] at h
        subst h
        refine ⟨?_, by simp [isElem]⟩
        simp [childPairs, encChildren_inv (.obj fs) cs hc k, blockOf]
theorem encArrItems_inv : ∀ (k : String) (vs : List JValue) (xs : List Xml),
    encArrItems k vs = some xs →
    childPairs xs = vs.map (fun v => (k, v)) ∧ xs.all isElem = true
  | k, [], xs => by
      intro h
      unfold encArrItems at h
      simp only [Option.some.injEq] at h
      subst h
      exact ⟨rfl, rfl⟩
  | k, v :: vs, xs => by
      intro h
      unfold encArrItems at h
      by_cases ha : isArr v = true
      · simp [ha] at h
      · rw [Bool.not_eq_true] at ha
        rw [if_neg (by simp [ha])] at h
        rcases hc : encChildren v with _ | cs <;> rw [hc] at h
        · simp at h
        · rcases hr : encArrItems k vs with _ | ys <;> rw [hr] at h
          · simp at h
          · simp only [Option.some.injEq] at h
            subst h
            have h2 := encArrItems_inv k vs ys hr
            refine ⟨?_, by simp [isElem, h2.2]⟩
            simp [childPairs, encChildren_inv v cs hc k, h2.1]
end

/-- C6.  Format detection plus normalisation is format-agnostic: for every
JSON document that has an equivalent hand-authored XML document (same
field names and values, per the encoder), detection classifies each body
correctly and the two parse branches of `get_response_data` — JSON decode,
and `xmltodict` conversion with the `ObjectNode` wrapper hoisted — yield
structurally equal mappings. -/
theorem c6_format_roundtrip :
    ∀ (j : JValue) (b : RawBody), encodeXmlDoc j = some b →
      detectResponseFormat b = "xml" ∧ detectResponseFormat (.json j) = "json" ∧
      normalizeResponse b = .ok j ∧ normalizeResponse (.json j) = .ok j := by
  intro j b h
  cases j with
  | obj fs =>
      rw [show encodeXmlDoc (.obj fs) =
        (encChildren (.obj fs)).map (fun cs => RawBody.xml "ObjectNode" cs) from rfl] at h
      rcases hc : encChildren (.obj fs) with _ | cs <;> rw [hc] at h
      · simp at h
      · simp only [Option.map_some', Option.some.injEq] at h
        subst h
        refine ⟨rfl, rfl, ?_, rfl⟩
        have hv := encChildren_inv (.obj fs) cs hc "ObjectNode"
        simp [normalizeResponse, detectResponseFormat, xmltodictParse,
          hoistObjectNode, lookupField, List.find?, hv]
  | null => simp [encodeXmlDoc] at h
  | bool b2 => simp [encodeXmlDoc] at h
  | num q => simp [encodeXmlDoc] at h
  | str s => simp [encodeXmlDoc] at h
  | arr xs => simp [encodeXmlDoc] at h

/-- Witness for C6: the zone-response document and its hand-authored XML
counterpart normalise to the same mapping, by the theorem itself. -/
theorem c6_format_roundtrip_witness :
    encodeXmlDoc jDoc = some xDoc ∧ normalizeResponse xDoc = .ok jDoc ∧
      normalizeResponse (.json jDoc) = .ok jDoc := by
  have h : encodeXmlDoc jDoc = some xDoc := by
    simp [encodeXmlDoc, jDoc, xDoc, encChildren, encFields, encField, encArrItems,
      keysDistinct, hasKey, isArr]
  exact ⟨h, (c6_format_roundtrip jDoc xDoc h).2.2.1,
    (c6_format_roundtrip jDoc xDoc h).2.2.2⟩

/-! ## C7 — sync never propagates exceptions -/

theorem returnSyncRest_err (doc : VatDoc) (w1 : World) (tr1 : Trace)
    (posOpt : Option PosInvoice) : (returnSyncRest doc w1 tr1 posOpt).err = false := by
  simp only [returnSyncRest]
  repeat' split
  all_goals rfl

theorem returnSyncRest_ex (doc : VatDoc) (w1 : World) (tr1 : Trace)
    (posOpt : Option PosInvoice) : (returnSyncRest doc w1 tr1 posOpt).ex = false := by
  simp only [returnSyncRest]
  repeat' split
  all_goals rfl

theorem engine_ex_no_err : ∀ (n : Nat) (c : ECall) (w : World) (tr : Trace),
    (engineF n c w tr).ex = true → (engineF n c w tr).err = false := by
  intro n
  induction n with
  | zero => intro c w tr _; rfl
  | succ n ih =>
      intro c w tr
      cases c with
      | sync d =>
          simp only [engineF]
          repeat' split
          all_goals intro hex
          all_goals first
            | rfl
            | exact ih _ _ _ hex
            | simp_all [returnSyncRest_ex]
      | details d =>
          simp only [engineF]
          repeat' split
          all_goals intro hex
          all_goals first
            | rfl
            | exact ih _ _ _ hex
            | simp_all
      | returnSync d =>
          simp only [engineF]
          repeat' split
          all_goals intro hex
          all_goals first
            | rfl
            | exact ih _ _ _ hex
            | simp_all [returnSyncRest_ex]
      | returnBuild p =>
          simp only [engineF]
          repeat' split
          all_goals intro hex
          all_goals first
            | rfl
            | exact ih _ _ _ hex
            | simp_all

theorem engine_err_false : ∀ (n : Nat),
    (∀ (d : VatDoc) (w : World) (tr : Trace), (engineF n (.sync d) w tr).err = false) ∧
    (∀ (d : VatDoc) (w : World) (tr : Trace), (engineF n (.details d) w tr).err = false) ∧
    (∀ (d : VatDoc) (w : World) (tr : Trace), (engineF n (.returnSync d) w tr).err = false) := by
  intro n
  induction n with
  | zero => exact ⟨fun _ _ _ => rfl, fun _ _ _ => rfl, fun _ _ _ => rfl⟩
  | succ n ih =>
      obtain ⟨ihs, ihd, ihr⟩ := ih
      refine ⟨fun d w tr => ?_, fun d w tr => ?_, fun d w tr => ?_⟩
      · show (engineF (n + 1) (.sync d) w tr).err = false
        simp only [engineF]
        repeat' split
        all_goals first
          | rfl
          | exact ihd _ _ _
          | exact ihr _ _ _
          | simp_all
      · show (engineF (n + 1) (.details d) w tr).err = false
        simp only [engineF]
        repeat' split
        all_goals first
          | rfl
          | exact ihs _ _ _
          | simp_all
      · show (engineF (n + 1) (.returnSync d) w tr).err = false
        simp only [engineF]
        repeat' split
        all_goals first
          | rfl
          | exact returnSyncRest_err _ _ _ _
          | (apply engine_ex_no_err; assumption)
          | simp_all

/-- C7.  `sync_vat_invoice` never propagates an exception to its caller —
for every fuel, invoice, world and trace the operation returns normally
with no error flag — and when the transport raises on the `record_vat`
POST, the swallowed exception leaves the invoice in status `Failed`. -/
theorem c7_sync_swallows_exceptions :
    (∀ (n : Nat) (d : VatDoc) (w : World) (tr : Trace),
      (engineF n (.sync d) w tr).err = false) ∧
    (∀ (n : Nat) (d : VatDoc) (w : World) (tr : Trace),
      w.transport w.reqIndex "POST" = .exn →
      (engineF (n + 1) (.sync d) w tr).doc.status = "Failed") := by
  constructor
  · exact fun n d w tr => (engine_err_false n).1 d w tr
  · intro n d w tr hexn
    simp [engineF, dbSetStatus, writeBack, getResponseData, hexn]

/-- Witness for C7: a transport that raises leaves the concrete invoice
`Failed`, by the theorem itself. -/
theorem c7_sync_swallows_exceptions_witness :
    (engineF 1 (.sync failedDoc) w5 []).doc.status = "Failed" :=
  c7_sync_swallows_exceptions.2 0 failedDoc w5 [] rfl

/-! ## C8 — validation failure is atomic -/

theorem buildDetails_offense : ∀ (items : List PosItem) (validIds : List JValue)
    (nm : String) (e : CreateErr), firstOffense validIds items = some e →
    buildDetails validIds nm items = .error e
  | [], _, _, _ => by intro h; simp [firstOffense] at h
  | item :: rest, validIds, nm, e => by
      intro h
      unfold firstOffense at h
      unfold buildDetails
      by_cases h1 : truthyO item.custom_service_type_id = true
      · rw [if_neg (by simp [h1])] at h
        rw [if_neg (by simp [h1])]
        by_cases h2 : (validIds.any fun v => beqJ v (jOpt item.custom_service_type_id)) = true
        · rw [if_neg (by simp [h2])] at h
          rw [if_neg (by simp [h2])]
          rw [buildDetails_offense rest validIds nm e h]
        · rw [Bool.not_eq_true] at h2
          rw [if_pos (by simp [h2])] at h
          rw [if_pos (by simp [h2])]
          simp only [Option.some.injEq] at h
          rw [h]
      · rw [Bool.not_eq_true] at h1
        rw [if_pos (by simp [h1])] at h
        rw [if_pos (by simp [h1])]
        simp only [Option.some.injEq] at h
        rw [h]

/-- C8 (amended).  Provided the POS profile, retailer branch, retailer and
customer resolve and the branch is not disabled, a transaction containing
a line item whose service-type id is missing or absent from the retailer's
permitted set makes `create_vat_invoice` fail with the `ValidationError`
naming the first offending item, and no VAT Invoice record is persisted:
the world is returned unchanged. -/
theorem c8_validation_atomic :
    ∀ (n : Nat) (pos : PosInvoice) (w : World) (tr : Trace) (prof : PosProfile)
      (br : RetailerBranch) (ret : Retailer) (cust : Customer) (e : CreateErr),
      w.posProfiles.find? (fun p => p.name == pos.pos_profile) = some prof →
      w.branches.find? (fun b => b.name == prof.custom_retailer_branch) = some br →
      br.disabled = false →
      w.retailers.find? (fun r => r.name == prof.custom_retailer) = some ret →
      w.customers.find? (fun c => c.name == pos.customer) = some cust →
      firstOffense ret.service_types pos.items = some e →
      createF n pos w tr = ⟨w, tr, .error e, false⟩ := by
  intro n pos w tr prof br ret cust e hp hb hd hr hc ho
  simp [createF, hp, hb, hd, hr, hc, buildDetails_offense pos.items ret.service_types pos.name e ho]

/-- Counterexample for C8 as stated: with the retailer branch disabled,
`create_vat_invoice` returns silently — no `ValidationError` is raised for
the invalid line item (and nothing is persisted either). -/
theorem c8_counterexample :
    createF 1 badItemPos wDisabled [] = ⟨wDisabled, [], .ok none, false⟩ := by
  simp [createF, badItemPos, wDisabled, w0, profA, retailerA, custA, item0, pos0,
    List.find?]

/-- Witness for C8: the enabled-branch world with the foreign service-type
item fails with the `ValidationError` naming the item and leaves the world
unchanged, by the theorem itself. -/
theorem c8_validation_atomic_witness :
    createF 1 badItemPos wEnabled [] =
      ⟨wEnabled, [], .error (.invalidServiceType "Gadget"), false⟩ :=
  c8_validation_atomic 1 badItemPos wEnabled [] profA ⟨"BR-1", false⟩ retailerA custA
    (.invalidServiceType "Gadget")
    (by simp [wEnabled, w0, profA, badItemPos, pos0, List.find?])
    (by simp [wEnabled, w0, profA, List.find?])
    rfl
    (by simp [wEnabled, w0, profA, retailerA, List.find?])
    (by simp [wEnabled, w0, badItemPos, pos0, custA, List.find?])
    (by simp [firstOffense, badItemPos, retailerA, pos0, item0, truthyO, pyTruthy,
      jOpt, beqJ])

/-! ## C4 — return status decided against the wrong transaction -/

/-- C4.  The 4-of-10 partial-return example contradicts the claim: the
stored return payload sums to 4 returned units and the original
transaction `origPos10` totals 10 units, so the claim requires final
status `Partly Return`; but `sync_return_vat_invoice` ends with status
`Return` (full return).  The code compares the payload's summed quantity
against the transaction fetched from `doc.return_invoice_no` — the RETURN
transaction itself, whose items also sum to 4 in absolute value — and
never reads the original transaction's total quantity. -/
theorem c4_return_status_wrong_baseline :
    pyGetD retPayload4 "return_request_details" (.arr []) =
      .ok (.arr [.obj [("product_name", .str "Widget"), ("quantity", .num 4)]]) ∧
    sumQuantities (.arr [.obj [("product_name", .str "Widget"), ("quantity", .num 4)]]) =
      .ok 4 ∧
    origPos10.items.foldl (fun a i => a + |i.qty|) 0 = 10 ∧
    retPos4.items.foldl (fun a i => a + |i.qty|) 0 = 4 ∧
    (engineF 1 (.returnSync retDoc4) w4 []).doc.status = "Return" := by
  refine ⟨?_, ?_, ?_, ?_, ?_⟩
  · rfl
  · simp [sumQuantities, sumQuantities.go, pyGetD, pyGet, lookupField, pyNum,
      Except.map, List.find?_cons, List.find?_nil]
  · norm_num [origPos10, pos0, item0]
  · norm_num [retPos4, pos0, item0]
  · have h4 : |(-4 : ℚ)| = 4 := by norm_num
    simp [engineF, returnSyncRest, retDoc4, retPayload4, vd0, truthyO, pyTruthy,
      findPosInvoice, w4, w0, origPos10, retPos4, pos0, item0,
      pyGetD, pyGet, lookupField, sumQuantities, sumQuantities.go, pyNum,
      getResponseData, tPost200, normalizeResponse, detectResponseFormat,
      raiseForStatus, dbSetStatus, writeBack, jEq, pyStr, beqJ,
      Except.map, List.find?_cons, List.find?_nil, h4]

/-! ## C5 — the status state machine -/

theorem traceExtends_refl (tr : Trace) : TraceExtends tr tr :=
  ⟨[], by simp, by simp⟩

theorem traceExtends_trans {a b c : Trace}
    (h1 : TraceExtends a b) (h2 : TraceExtends b c) : TraceExtends a c := by
  obtain ⟨d1, rfl, h1e⟩ := h1
  obtain ⟨d2, rfl, h2e⟩ := h2
  refine ⟨d1 ++ d2, by simp, ?_⟩
  intro p hp
  rcases List.mem_append.mp hp with h | h
  · exact h1e p h
  · exact h2e p h

theorem traceExtends_snoc {tr : Trace} {p : String × String} (h : edgeOK p) :
    TraceExtends tr (tr ++ [p]) :=
  ⟨[p], rfl, by simpa using h⟩

/-- Every `db_set("status", _)` performed by the continuation of
`sync_return_vat_invoice` targets `Failed`, `Return` or `Partly Return`,
all of which the code's edge set allows from any previous status. -/
theorem returnSyncRest_trace (doc : VatDoc) (w : World) (tr : Trace)
    (posOpt : Option PosInvoice) :
    TraceExtends tr (returnSyncRest doc w tr posOpt).tr := by
  simp only [returnSyncRest]
  repeat' split
  all_goals
    try simp only [dbSetStatus]
    repeat' (first
      | exact traceExtends_refl _
      | refine traceExtends_trans ?_ (traceExtends_snoc (by simp_all [edgeOK])))

/-- Every status transition the engine records is from the code's edge
set: arbitrary sources may enter `Syncing`, `Return`, `Partly Return` and
`Failed`, while `Synced` is only entered from `Syncing` and `Pending`
only from `Synced`. -/
theorem engine_trace : ∀ (n : Nat) (c : ECall) (w : World) (tr : Trace),
    TraceExtends tr (engineF n c w tr).tr := by
  intro n
  induction n with
  | zero => intro c w tr; exact traceExtends_refl _
  | succ n ih =>
    intro c w tr
    cases c with
    | sync doc =>
        simp only [engineF]
        repeat' split
        all_goals
          try simp only [dbSetStatus]
          repeat' (first
            | exact traceExtends_refl _
            | exact ih _ _ _
            | refine traceExtends_trans ?_ (ih _ _ _)
            | refine traceExtends_trans ?_ (traceExtends_snoc (by simp_all [edgeOK])))
    | details doc =>
        simp only [engineF]
        repeat' split
        all_goals
          repeat' (first
            | exact traceExtends_refl _
            | exact ih _ _ _
            | refine traceExtends_trans ?_ (ih _ _ _))
    | returnSync doc =>
        simp only [engineF]
        repeat' split
        all_goals
          try simp only [dbSetStatus]
          repeat' (first
            | exact traceExtends_refl _
            | exact ih _ _ _
            | exact returnSyncRest_trace _ _ _ _
            | refine traceExtends_trans ?_ (returnSyncRest_trace _ _ _ _)
            | refine traceExtends_trans ?_ (ih _ _ _)
            | refine traceExtends_trans ?_ (traceExtends_snoc (by simp_all [edgeOK])))
    | returnBuild pos =>
        simp only [engineF]
        repeat' split
        all_goals
          try simp only [dbSetStatus]
          repeat' (first
            | exact traceExtends_refl _
            | exact ih _ _ _
            | refine traceExtends_trans ?_ (ih _ _ _)
            | refine traceExtends_trans ?_ (traceExtends_snoc (by simp_all [edgeOK])))

/-- `create_vat_invoice` records status transitions only through the
synchronous `sync_vat_invoice` it may invoke. -/
theorem create_trace (n : Nat) (pos : PosInvoice) (w : World) (tr : Trace) :
    TraceExtends tr (createF n pos w tr).tr := by
  simp only [createF]
  repeat' split
  all_goals
    repeat' (first
      | exact traceExtends_refl _
      | exact engine_trace _ _ _ _
      | refine traceExtends_trans ?_ (engine_trace _ _ _ _))

/-- C5 (amended).  Over every operation sequence the engine can run
(`create_vat_invoice`, `sync_vat_invoice`, `return_vat_invoice`,
`sync_return_vat_invoice`, `get_vat_invoice_details`), the recorded
status transitions stay inside the code's edge set `edgeOK`: any status
may enter `Syncing` (a sync attempt, including retries from `Failed`),
`Return`, `Partly Return` or `Failed`, while `Synced` is entered only
from `Syncing` and `Pending` only from `Synced`.  This edge set strictly
exceeds the claimed state machine: the claim omits, among others, the
`Failed → Syncing` retry transition exhibited by the counterexample. -/
theorem c5_status_machine :
    (∀ (n : Nat) (c : ECall) (w : World) (tr : Trace),
        TraceExtends tr (engineF n c w tr).tr) ∧
    (∀ (n : Nat) (pos : PosInvoice) (w : World) (tr : Trace),
        TraceExtends tr (createF n pos w tr).tr) :=
  ⟨engine_trace, create_trace⟩

/-- Counterexample for C5 as stated: syncing an invoice already in status
`Failed` records the transition `Failed → Syncing`, which is not an edge
of the claimed state machine. -/
theorem c5_counterexample :
    ("Failed", "Syncing") ∈ (engineF 1 (.sync failedDoc) w5 []).tr ∧
    ("Failed", "Syncing") ∉ specEdges := by
  constructor
  · simp [engineF, dbSetStatus, failedDoc, vd0, w5, w0, getResponseData, tDown,
      writeBack]
  · decide

/-! ## C10 — recursion depth of the sync / details mutual recursion -/

/-- In the return-flow configuration of `loopDoc` (a synced, return-flagged
invoice with no stored detail response, no return payload and no return
response, against a transport whose POSTs succeed and whose GETs raise)
every fuel level exhausts: the cycle `sync_vat_invoice →
get_vat_invoice_details → sync_return_vat_invoice → return_vat_invoice →
get_vat_invoice_details → sync_vat_invoice → …` never bottoms out. -/
theorem loopExhausts : ∀ (n : Nat),
    (∀ (pos : PosInvoice) (w : World) (tr : Trace), pos = loopPos →
        w.transport = tPost200 → w.vatInvoices = [loopDoc] →
        w.posInvoices = [loopPos] →
        (engineF n (.returnBuild pos) w tr).ex = true) ∧
    (∀ (doc : VatDoc) (w : World) (tr : Trace), doc = loopPendingDoc →
        w.transport = tPost200 → w.vatInvoices = [loopPendingDoc] →
        w.posInvoices = [loopPos] →
        (engineF n (.details doc) w tr).ex = true) ∧
    (∀ (doc : VatDoc) (w : World) (tr : Trace), doc = loopPendingDoc →
        w.transport = tPost200 → w.vatInvoices = [loopPendingDoc] →
        w.posInvoices = [loopPos] →
        (engineF n (.sync doc) w tr).ex = true) ∧
    (∀ (doc : VatDoc) (w : World) (tr : Trace), doc = loopDoc →
        w.transport = tPost200 → w.vatInvoices = [loopDoc] →
        w.posInvoices = [loopPos] →
        (engineF n (.returnSync doc) w tr).ex = true) := by
  intro n
  induction n using Nat.strong_induction_on with
  | _ n ih =>
    cases n with
    | zero =>
        exact ⟨fun _ _ _ _ _ _ _ => rfl, fun _ _ _ _ _ _ _ => rfl,
          fun _ _ _ _ _ _ _ => rfl, fun _ _ _ _ _ _ _ => rfl⟩
    | succ k =>
      refine ⟨?_, ?_, ?_, ?_⟩
      · intro pos w tr hpos hT hV hP
        subst hpos
        have hDk := (ih k (by omega)).2.1
        simp [engineF, loopPos, pos0, loopDoc, loopPendingDoc, vd0, okBody,
          findInvoiceByNumber, writeBack, dbSetStatus, truthyO, pyTruthy,
          List.find?_cons, List.find?_nil, hT, hV, hP, hDk]
      · intro doc w tr hdoc hT hV hP
        subst hdoc
        have hSk := (ih k (by omega)).2.2.1
        simp [engineF, loopPendingDoc, loopDoc, vd0, okBody,
          List.find?_cons, List.find?_nil, hT, hV, hP, hSk]
      · intro doc w tr hdoc hT hV hP
        subst hdoc
        cases k with
        | zero =>
            simp [engineF, loopPendingDoc, loopDoc, vd0, okBody, hT, hV, hP,
              dbSetStatus, writeBack, getResponseData, tPost200, raiseForStatus,
              normalizeResponse, detectResponseFormat, pyGetD, pyGet, lookupField,
              pyStr, truthyO, pyTruthy, List.find?_cons, List.find?_nil,
              Except.map]
        | succ m =>
            have hBm := (ih m (by omega)).1
            simp [engineF, loopPendingDoc, loopDoc, vd0, okBody, hT, hV, hP,
              dbSetStatus, writeBack, getResponseData, tPost200, raiseForStatus,
              normalizeResponse, detectResponseFormat, pyGetD, pyGet, lookupField,
              pyStr, truthyO, pyTruthy, List.find?_cons, List.find?_nil,
              Except.map, findPosInvoice, loopPos, pos0, hBm]
      · intro doc w tr hdoc hT hV hP
        subst hdoc
        have hBk := (ih k (by omega)).1
        simp [engineF, loopDoc, loopPendingDoc, vd0, okBody, hT, hV, hP,
          findPosInvoice, loopPos, pos0, truthyO, pyTruthy,
          List.find?_cons, List.find?_nil, hBk]

/-- `get_vat_invoice_details` on a document whose status is neither
`Pending` nor `Failed` triggers no nested sync and completes within one
fuel level, for every transport. -/
theorem details_ex (n : Nat) (doc : VatDoc) (w : World) (tr : Trace)
    (h : (doc.status == "Pending" || doc.status == "Failed") = false) :
    (engineF (n + 1) (.details doc) w tr).ex = false := by
  simp only [engineF, h, Bool.false_eq_true, if_false]
  split <;> rfl

/-- Under the same condition, `get_vat_invoice_details` leaves the
`is_return` flag of the document untouched. -/
theorem details_ret (n : Nat) (doc : VatDoc) (w : World) (tr : Trace)
    (h : (doc.status == "Pending" || doc.status == "Failed") = false) :
    (engineF (n + 1) (.details doc) w tr).doc.is_return = doc.is_return := by
  simp only [engineF, h, Bool.false_eq_true, if_false]
  split <;> rfl

set_option maxHeartbeats 1600000 in
/-- `sync_vat_invoice` on a non-return invoice completes within two fuel
levels for every transport: the nested `get_vat_invoice_details` runs at
status `Synced` or `Syncing`, so it never re-enters the sync. -/
theorem sync_nonreturn (n : Nat) (doc : VatDoc) (w : World) (tr : Trace)
    (h : doc.is_return = false) :
    (engineF (n + 1 + 1) (.sync doc) w tr).ex = false := by
  rw [engineF]
  repeat' split
  all_goals try simp [details_ex, details_ret, h, dbSetStatus, writeBack,
    apply_ite VatDoc.is_return, ite_self]
  all_goals try (rename_i o hq; by_cases hc : pyStr o = "200" <;>
    simp [hc, details_ex, details_ret, h, dbSetStatus, writeBack,
      apply_ite VatDoc.is_return, ite_self])
  all_goals repeat' split
  all_goals try simp [details_ex, details_ret, h, dbSetStatus, writeBack,
    apply_ite VatDoc.is_return, ite_self]
  all_goals repeat' split
  all_goals try simp [details_ex, details_ret, h, dbSetStatus, writeBack,
    apply_ite VatDoc.is_return, ite_self]

/-- C10 (amended).  The bounded-depth argument of the claim holds away
from the return flow: `get_vat_invoice_details` re-invokes
`sync_vat_invoice` only at status `Pending` or `Failed`, so on any other
status it finishes with one fuel level, and `sync_vat_invoice` on a
non-return invoice finishes with two, for every invoice, world and
transport behaviour.  The unqualified termination claim is false: for a
return-flagged invoice the chain `sync → details → sync_return →
return_build → details → sync` recurses unboundedly (see the
counterexample). -/
theorem c10_bounded_recursion :
    (∀ (n : Nat) (doc : VatDoc) (w : World) (tr : Trace),
        (doc.status == "Pending" || doc.status == "Failed") = false →
        (engineF (n + 1) (.details doc) w tr).ex = false) ∧
    (∀ (n : Nat) (doc : VatDoc) (w : World) (tr : Trace),
        doc.is_return = false →
        (engineF (n + 1 + 1) (.sync doc) w tr).ex = false) :=
  ⟨fun n doc w tr h => details_ex n doc w tr h,
   fun n doc w tr h => sync_nonreturn n doc w tr h⟩

/-- Witness for C10: a blank non-return invoice syncs to completion at
fuel 2, and its details call completes at fuel 1. -/
theorem c10_bounded_recursion_witness :
    (engineF 1 (.details vd0) w0 []).ex = false ∧
    (engineF 2 (.sync vd0) w0 []).ex = false :=
  ⟨c10_bounded_recursion.1 0 vd0 w0 [] rfl,
   c10_bounded_recursion.2 0 vd0 w0 [] rfl⟩

/-- Counterexample for C10 as stated: for the return-flow configuration
(`loopPendingDoc` against a transport whose POSTs succeed and whose GETs
raise) no recursion depth suffices — `sync_vat_invoice` does not
terminate. -/
theorem c10_counterexample : ¬ syncTerminatesAt loopPendingDoc (wPend 0) := by
  intro hterm
  obtain ⟨n, hn⟩ := hterm
  have h2 := (loopExhausts n).2.2.1 loopPendingDoc (wPend 0) [] rfl rfl rfl rfl
  rw [hn] at h2
  exact Bool.false_ne_true h2

end VSChallan
